import Mathlib

/-!
Verification development for the metadata-extractor pipeline
(`metadata_scripts`): a shallow embedding of the token-aware chunker,
the per-entity LLM dispatch and batch combination, the response parser,
the field reconcilers and the tabular assemblers, together with theorems
about the specified behaviour of those functions.

Conventions of the embedding:
  * Python values that flow through the pipeline (JSON data, spreadsheet
    cells) are modelled by the inductive type `Val`
    (null / bool / int / string / list / dict).
  * Python exceptions are modelled by `Except PyErr`; a function that the
    source wraps in `try/except` handles the error explicitly.
  * External capabilities (the LLM endpoints, the translation service,
    `tiktoken`'s `count_tokens`, `json.loads`) are parameters of the
    embedded functions: they are not code of this repository.
  * Strings are manipulated through their character lists; Python's
    `str.strip`, `str.title`, `str.capitalize`, `str.split`, `str.join`,
    `str.replace` and slicing are re-implemented below on `List Char`
    (ASCII case mapping, which is what the data in question uses).
-/

set_option maxRecDepth 10000
set_option maxHeartbeats 1000000

/-- Python exceptions that the embedded code can raise. -/
inductive PyErr where
  | typeError
  | keyError
  | indexError
  | attrError
deriving DecidableEq, Repr

/-- Python whitespace, the character class of `str.strip()` and `\s`:
space, tab, newline, carriage return, vertical tab, form feed. -/
def isPyWs (c : Char) : Bool :=
  c == ' ' || c == '\t' || c == '\n' || c == '\r' || c.toNat == 11 || c.toNat == 12

/-- Strip trailing characters satisfying `p` from a character list. -/
def dropRightWhileL (p : Char → Bool) (l : List Char) : List Char :=
  (l.reverse.dropWhile p).reverse

/-- `str.strip()` on a character list. -/
def stripL (l : List Char) : List Char :=
  dropRightWhileL isPyWs (l.dropWhile isPyWs)

/-- `str.strip()`. -/
def py_strip (s : String) : String :=
  ⟨stripL s.data⟩

/-- `str.strip(chars)` for a given character set, on a character list. -/
def stripCharsL (p : Char → Bool) (l : List Char) : List Char :=
  dropRightWhileL p (l.dropWhile p)

/-- `str.rstrip(chars)` for a given character set. -/
def rstripCharsL (p : Char → Bool) (l : List Char) : List Char :=
  dropRightWhileL p l

/-- Helper for `str.title()`: the boolean records whether the previous
character was alphabetic (cased). -/
def pyTitleAux : Bool → List Char → List Char
  | _, [] => []
  | prev, c :: t =>
    (if c.isAlpha then (if prev then c.toLower else c.toUpper) else c) ::
      pyTitleAux c.isAlpha t

/-- `str.title()` (ASCII): the first letter of every alphabetic run is
uppercased, the rest lowercased. -/
def py_title (s : String) : String :=
  ⟨pyTitleAux false s.data⟩

/-- `str.capitalize()` (ASCII). -/
def py_capitalize (s : String) : String :=
  match s.data with
  | [] => ""
  | c :: t => ⟨c.toUpper :: t.map Char.toLower⟩

/-- `str.lower()` (ASCII). -/
def py_lower (s : String) : String :=
  ⟨s.data.map Char.toLower⟩

/-- `key.replace('_', ' ')`: a single-character replacement is a map
over the characters. -/
def underscores_to_spaces (s : String) : String :=
  ⟨s.data.map (fun c => if c == '_' then ' ' else c)⟩

/-- Replace every (non-overlapping, leftmost-first) occurrence of the
pattern `pat` by `rep`, as Python's `str.replace`. -/
def replaceSubL (pat : List Char) (hp : pat ≠ []) (rep : List Char) :
    List Char → List Char
  | [] => []
  | c :: t =>
    if h : pat.isPrefixOf (c :: t) then
      rep ++ replaceSubL pat hp rep ((c :: t).drop pat.length)
    else
      c :: replaceSubL pat hp rep t
termination_by l => l.length
decreasing_by
  · have hpre : pat <+: (c :: t) := by
      simpa [List.isPrefixOf_iff_prefix] using h
    have hlen : pat.length ≤ (c :: t).length := hpre.length_le
    have h1 : 1 ≤ pat.length := by
      cases hq : pat with
      | nil => exact absurd hq hp
      | cons a l => simp
    simp only [List.length_drop]
    omega
  · simp

/-- Python's `word.split()`-style whitespace tokenisation: split on runs
of whitespace, dropping empty pieces.  Accumulates the current word in
reverse. -/
def pyWordsAux : List Char → List Char → List (List Char)
  | [], acc => if acc.isEmpty then [] else [acc.reverse]
  | c :: t, acc =>
    if isPyWs c then
      if acc.isEmpty then pyWordsAux t [] else acc.reverse :: pyWordsAux t []
    else
      pyWordsAux t (c :: acc)

/-- `text.split()` (no separator argument). -/
def py_words (s : String) : List String :=
  (pyWordsAux s.data []).map (fun l => ⟨l⟩)

/-- `sep.join(xs)` for a list of strings. -/
def py_join (sep : String) (xs : List String) : String :=
  ⟨List.intercalate sep.data (xs.map String.data)⟩

/-- The prefix of `l` strictly before the first occurrence of the
substring `pat`, or `none` when `pat` does not occur in `l`. -/
def takeBeforeAux (pat : List Char) : List Char → Option (List Char)
  | [] => if pat.isPrefixOf ([] : List Char) then some [] else none
  | c :: t =>
    if pat.isPrefixOf (c :: t) then some []
    else (takeBeforeAux pat t).map (fun r => c :: r)

/-- `pat` occurs as a substring of `l` (Python's `pat in l`). -/
def hasSubL (pat l : List Char) : Bool :=
  (takeBeforeAux pat l).isSome

/-- `s.split(pat)[0]`: everything before the first occurrence of `pat`,
or all of `s` when `pat` does not occur. -/
def takeBeforeL (pat l : List Char) : List Char :=
  match takeBeforeAux pat l with
  | some p => p
  | none => l

/-- Python/JSON values flowing through the pipeline. -/
inductive Val where
  | vnone
  | vbool (b : Bool)
  | vint (n : Int)
  | vstr (s : String)
  | vlist (xs : List Val)
  | vdict (xs : List (String × Val))

/-- Python truthiness of a `Val`. -/
def pyTruthy : Val → Bool
  | .vnone => false
  | .vbool b => b
  | .vint n => n != 0
  | .vstr s => s != ""
  | .vlist xs => !xs.isEmpty
  | .vdict xs => !xs.isEmpty

mutual

/-- Python `str(v)`. -/
def py_str : Val → String
  | .vnone => "None"
  | .vbool b => if b then "True" else "False"
  | .vint n => toString n
  | .vstr s => s
  | .vlist xs => "[" ++ reprListAux xs ++ "]"
  | .vdict xs => "\x7b" ++ reprDictAux xs ++ "\x7d"

/-- Python `repr(v)` (string quoting approximated with plain quotes). -/
def py_repr : Val → String
  | .vnone => "None"
  | .vbool b => if b then "True" else "False"
  | .vint n => toString n
  | .vstr s => "\x27" ++ s ++ "\x27"
  | .vlist xs => "[" ++ reprListAux xs ++ "]"
  | .vdict xs => "\x7b" ++ reprDictAux xs ++ "\x7d"

/-- Comma-joined `repr`s of the elements of a list. -/
def reprListAux : List Val → String
  | [] => ""
  | [x] => py_repr x
  | x :: y :: rest => py_repr x ++ ", " ++ reprListAux (y :: rest)

/-- Comma-joined `'key': repr(value)` pairs of a dict. -/
def reprDictAux : List (String × Val) → String
  | [] => ""
  | [(k, v)] => "\x27" ++ k ++ "\x27: " ++ py_repr v
  | (k, v) :: p :: rest =>
      "\x27" ++ k ++ "\x27: " ++ py_repr v ++ ", " ++ reprDictAux (p :: rest)

end

/-- First-match association lookup (Python `dict` access order). -/
def alookup {α : Type} : List (String × α) → String → Option α
  | [], _ => none
  | (k, v) :: t, key => if k = key then some v else alookup t key

/-- `d.get(key, default)` on a dict's entry list. -/
def dGetD (d : List (String × Val)) (key : String) (dflt : Val) : Val :=
  (alookup d key).getD dflt

/-- `v.get(key, default)`: attribute error when `v` is not a dict. -/
def pyGet (v : Val) (key : String) (dflt : Val) : Except PyErr Val :=
  match v with
  | .vdict d => .ok (dGetD d key dflt)
  | _ => .error .attrError

/-- `v[key]`: key error when absent, type/attribute error when `v` is
not a dict. -/
def pyIndex (v : Val) (key : String) : Except PyErr Val :=
  match v with
  | .vdict d =>
    match alookup d key with
    | some r => .ok r
    | none => .error .keyError
  | _ => .error .typeError

/-- Python `key in v` for the membership test of row-building code:
substring test for strings, element test for lists, key test for dicts,
type error otherwise. -/
def pyContainsKey (v : Val) (key : String) : Except PyErr Bool :=
  match v with
  | .vstr s => .ok (hasSubL key.data s.data)
  | .vlist xs =>
    .ok (xs.any (fun x => match x with | .vstr s => s == key | _ => false))
  | .vdict d => .ok ((alookup d key).isSome)
  | _ => .error .typeError

/-- Iterating a Python value: lists yield their elements, strings their
characters, dicts their keys; other values are not iterable. -/
def pyIter : Val → Except PyErr (List Val)
  | .vlist xs => .ok xs
  | .vstr s => .ok (s.data.map (fun c => .vstr ⟨[c]⟩))
  | .vdict d => .ok (d.map (fun kv => .vstr kv.1))
  | _ => .error .typeError

/-- All elements as strings, or `none` when one is not a string. -/
def strsOfVals : List Val → Option (List String)
  | [] => some []
  | .vstr s :: t => (strsOfVals t).map (fun r => s :: r)
  | _ :: _ => none

/-- `sep.join(it)`: every element produced by the iterable must be a
string, otherwise a `TypeError` is raised. -/
def pyJoinIter (sep : String) (v : Val) : Except PyErr String :=
  match pyIter v with
  | .error e => .error e
  | .ok items =>
    match strsOfVals items with
    | some ss => .ok (py_join sep ss)
    | none => .error .typeError

/-- `str.rstrip(', ')` as used by `format_data` on list renderings. -/
def rstrip_comma_space (s : String) : String :=
  ⟨rstripCharsL (fun c => c == ',' || c == ' ') s.data⟩

mutual

/-- `helpers.format_data`, body before the final `.strip()`: renders a
dict as `Key: value` lines (keys title-cased with underscores as
spaces, nested dicts indented, lists comma-joined or `None` when
empty), a list as comma-joined `str`s or `"None"` when empty, a string
as itself, anything else via `str`.  Recursive calls go through
`py_strip ∘ format_data_core`, i.e. the full `format_data`. -/
def format_data_core : Val → String
  | .vdict xs => fdDict xs
  | .vlist xs => if xs.isEmpty then "None" else fdTopList xs
  | .vstr s => s
  | v => py_str v
termination_by v => sizeOf v
decreasing_by all_goals (simp_wf <;> omega)

/-- One `Key: value` line (or block) per dict entry of `format_data`. -/
def fdDict : List (String × Val) → String
  | [] => ""
  | (k, .vdict ys) :: rest =>
    py_title (underscores_to_spaces k) ++ ":\n  " ++
      py_strip (format_data_core (.vdict ys)) ++ "\n" ++ fdDict rest
  | (k, .vlist items) :: rest =>
    (if items.isEmpty then
       py_title (underscores_to_spaces k) ++ ": None\n"
     else
       py_title (underscores_to_spaces k) ++ ":" ++
         rstrip_comma_space (fdInnerList items) ++ "\n") ++ fdDict rest
  | (k, v) :: rest =>
    py_title (underscores_to_spaces k) ++ ": " ++ py_str v ++ "\n" ++
      fdDict rest
termination_by l => sizeOf l
decreasing_by all_goals (simp_wf <;> omega)

/-- The rendering of a list value inside a dict entry of `format_data`:
dict items recursively formatted on their own indented lines, other
items `str`-ed and comma-separated. -/
def fdInnerList : List Val → String
  | [] => ""
  | .vdict ys :: rest =>
    "\n  " ++ py_strip (format_data_core (.vdict ys)) ++ "\n" ++
      fdInnerList rest
  | item :: rest => py_str item ++ ", " ++ fdInnerList rest
termination_by l => sizeOf l
decreasing_by all_goals (simp_wf <;> omega)

/-- The rendering of a top-level (non-empty) list by `format_data`:
`", ".join(map(str, data))`. -/
def fdTopList : List Val → String
  | [] => ""
  | [x] => py_str x
  | x :: y :: rest => py_str x ++ ", " ++ fdTopList (y :: rest)
termination_by l => sizeOf l
decreasing_by all_goals (simp_wf <;> omega)

end

/-- `helpers.format_data`: the canonical formatter, final `.strip()`
included. -/
def format_data (v : Val) : String :=
  py_strip (format_data_core v)

/-! ### Claim C7: `format_data` on empty inputs -/

/-- Claim C7, counterexample: the claim says `format_data({})` renders as
the literal string `'None'`; in the code the dict branch of
`format_data` emits nothing for an empty dict, so the result is the
empty string, not `'None'`. -/
theorem c7_counterexample : format_data (.vdict []) ≠ "None" := by
  have h : format_data (.vdict []) = "" := by
    simp [format_data, format_data_core, fdDict, py_strip, stripL, dropRightWhileL]
  rw [h]
  decide

/-- Claim C7, amended: of the three empty inputs only the empty list
renders as `'None'`; an empty mapping and an empty string both render
as the empty string (the `'None'` collapse for those is left to the
callers' own truthiness fallbacks). -/
theorem c7_amended :
    format_data (.vdict []) = "" ∧
    format_data (.vlist []) = "None" ∧
    format_data (.vstr "") = "" := by
  refine ⟨?_, ?_, ?_⟩ <;>
    simp [format_data, format_data_core, fdDict, py_strip, stripL,
      dropRightWhileL, isPyWs]

/-! ### The token-aware chunker (`helpers.split_text_into_batches`)

`count_tokens` calls into `tiktoken`, an external library; it is
modelled as an abstract parameter `tok : String → Nat` throughout. -/

/-- The word loop of `split_text_into_batches`: `cur` is the current
batch (in reverse), `curTok` the running token count of `cur`.  A word
whose tokens would push the running count over the budget first flushes
the current batch (even when that batch is empty). -/
def splitBatchesAux (tok : String → Nat) (maxTokens : Nat) :
    List String → List String → Nat → List (List String)
  | [], cur, _ => if cur.isEmpty then [] else [cur.reverse]
  | w :: ws, cur, curTok =>
    if curTok + tok w > maxTokens then
      cur.reverse :: splitBatchesAux tok maxTokens ws [w] (tok w)
    else
      splitBatchesAux tok maxTokens ws (w :: cur) (curTok + tok w)

/-- `helpers.split_text_into_batches(text, max_tokens)`: whitespace-split
the text into words, accumulate words while the running sum of per-word
token counts stays within the budget, join each batch with single
spaces. -/
def split_text_into_batches (tok : String → Nat) (text : String)
    (maxTokens : Nat) : List String :=
  (splitBatchesAux tok maxTokens (py_words text) [] 0).map
    (fun b => py_join " " b)

/-! ### Claim C6: chunking a text within the budget -/

/-- Claim C6, counterexample: the claim "for every text `t` with
`count_tokens(t) <= max_tokens` chunking returns exactly `[t]`" is
false: for the empty text (0 tokens under any tokenizer) the word list
is empty, no batch is ever started, and the result is `[]`, not
`[""]`. -/
theorem c6_counterexample :
    ¬ (∀ (tok : String → Nat) (t : String) (maxT : Nat),
        tok t ≤ maxT → split_text_into_batches tok t maxT = [t]) := by
  intro h
  have h0 := h (fun _ => 0) "" 120000 (Nat.zero_le _)
  exact absurd h0 (by decide)

/-- If the per-word token counts of the remaining words fit in the
remaining budget, the batch loop never flushes and produces the single
batch of all accumulated and remaining words. -/
theorem splitBatchesAux_no_flush (tok : String → Nat) (maxTokens : Nat) :
    ∀ (ws cur : List String) (curTok : Nat),
      curTok + (ws.map tok).sum ≤ maxTokens →
      splitBatchesAux tok maxTokens ws cur curTok =
        if cur.isEmpty && ws.isEmpty then [] else [cur.reverse ++ ws] := by
  intro ws
  induction ws with
  | nil =>
    intro cur curTok _
    cases cur <;> simp [splitBatchesAux]
  | cons w ws ih =>
    intro cur curTok hle
    simp only [List.map_cons, List.sum_cons] at hle
    have hnf : ¬ (curTok + tok w > maxTokens) := by omega
    have hrec := ih (w :: cur) (curTok + tok w) (by omega)
    simp only [splitBatchesAux, if_neg hnf, hrec]
    cases cur <;> simp

/-- Claim C6, amended: chunking returns exactly `[t]` provided (a) the
per-word token counts of `t` sum to at most the budget (the loop
compares running sums of per-word counts, not `count_tokens(t)`),
(b) `t` has at least one word, and (c) `t` is already in the
single-space normal form the chunker rebuilds (`' '.join(t.split())`);
an empty or all-whitespace `t` instead yields `[]`, and texts with
other whitespace are returned re-joined with single spaces. -/
theorem c6_amended (tok : String → Nat) (t : String) (maxT : Nat)
    (hsum : ((py_words t).map tok).sum ≤ maxT)
    (hne : py_words t ≠ [])
    (hnorm : t = py_join " " (py_words t)) :
    split_text_into_batches tok t maxT = [t] := by
  unfold split_text_into_batches
  rw [splitBatchesAux_no_flush tok maxT (py_words t) [] 0 (by simpa using hsum)]
  simp only [List.isEmpty_nil, Bool.true_and]
  rw [if_neg (by simpa using hne)]
  simp [hnorm.symm]

/-- Claim C6, witness: the amended statement at `t = "a b"` with the
character-count tokenizer. -/
theorem c6_witness :
    ((py_words "a b").map (fun s => s.data.length)).sum ≤ 120000 ∧
    py_words "a b" ≠ [] ∧
    split_text_into_batches (fun s => s.data.length) "a b" 120000 = ["a b"] :=
  ⟨by decide, by decide,
    c6_amended (fun s => s.data.length) "a b" 120000 (by decide) (by decide)
      (by decide)⟩

/-! ### The analysis dispatchers

`all_texts_reader.generate_api_requests` (the clinical dispatcher) and
`pathologic_report_reader.generate_api_requests` (the pathology
dispatcher). -/

/-- The per-entity body of the clinical dispatcher's loop: join the
entity's texts with blank lines; skip the entity when the result is
empty; emit `_batch_{i+1}`-suffixed chunk requests when the token count
exceeds the budget, a single request otherwise. -/
def clinical_entity_requests (tok : String → Nat) (maxTokens : Nat)
    (id_baznat : String) (texts : List String) : List (String × String) :=
  let combined_text := py_join "\n\n" texts
  if combined_text ≠ "" then
    if tok combined_text > maxTokens then
      (split_text_into_batches tok combined_text maxTokens).enum.map
        (fun p => (id_baznat ++ "_batch_" ++ toString (p.1 + 1), p.2))
    else
      [(id_baznat, combined_text)]
  else []

/-- `all_texts_reader.generate_api_requests(all_texts_data_dict,
max_tokens)`: the per-entity requests, in mapping order. -/
def generate_api_requests_all_texts (tok : String → Nat) (maxTokens : Nat)
    (all_texts_data_dict : List (String × List String)) :
    List (String × String) :=
  all_texts_data_dict.flatMap
    (fun p => clinical_entity_requests tok maxTokens p.1 p.2)

/-- A pathology entry, reduced to the two fields read by
`extract_combined_text_for_baznat`; a missing key behaves as the empty
string (`entry.get(..., '')`). -/
structure PathEntry where
  resultDesc : String
  resultText : String

/-- The per-entry text of
`pathologic_report_reader.extract_combined_text_for_baznat`. -/
def pathEntryStr (e : PathEntry) : String :=
  (if e.resultDesc ≠ "" then
     (if ¬ ("ראו".data.isPrefixOf e.resultDesc.data) then
        "**Result Description**: " ++ e.resultDesc ++ "\n"
      else "")
   else "") ++
  (if e.resultText ≠ "" then
     (if "התשובה ארוכה מידי".data.isPrefixOf e.resultText.data then
        "\n***TEXT TOO LONG TO EXTRACT! MAKE SURE TO INCLUDE REMARK AT THE END OF THE ANALYSIS REPORT***\n"
      else "**Result Text**: " ++ e.resultText ++ "\n")
   else "")

/-- `pathologic_report_reader.extract_combined_text_for_baznat`. -/
def extract_combined_text_for_baznat (entries : List PathEntry) : String :=
  py_join "\n" (entries.map pathEntryStr)

/-- `pathologic_report_reader.generate_api_requests`: the loop carries
`gpt_ready_text` across entities (its Python parameter defaults to
`None` and the inner date loop reassigns it to the extraction of each
date's entries, so after the loop it holds the last date's text — or
the previous entity's text when an entity has no dates).  One request
per entity at most; no token counting, no chunking, no batch
suffixes. -/
def generate_api_requests_pathology_aux :
    List (String × List (Val × List PathEntry)) → Option String →
      List (String × String)
  | [], _ => []
  | (id_baznat, dates_data) :: rest, gpt0 =>
    match dates_data.foldl
        (fun _ d => some (extract_combined_text_for_baznat d.2)) gpt0 with
    | some t =>
      if t ≠ "" then
        (id_baznat, t) :: generate_api_requests_pathology_aux rest (some t)
      else generate_api_requests_pathology_aux rest (some t)
    | none => generate_api_requests_pathology_aux rest none

/-- `pathologic_report_reader.generate_api_requests(pathology_data_dict)`
with the default `gpt_ready_text=None`. -/
def generate_api_requests_pathology
    (pathology_data_dict : List (String × List (Val × List PathEntry))) :
    List (String × String) :=
  generate_api_requests_pathology_aux pathology_data_dict none

/-! ### Claim C2: the dispatch contract -/

/-- The dispatch contract exactly as the spec words it (this definition
follows the spec, not the source, for comparison): one request
`(key, text)` when the token count fits the budget, otherwise the
chunks as `(key + "_batch_{i+1}", chunk_i)` in order. -/
def dispatcher_contract_requests (tok : String → Nat) (maxTokens : Nat)
    (key text : String) : List (String × String) :=
  if tok text ≤ maxTokens then [(key, text)]
  else
    (split_text_into_batches tok text maxTokens).enum.map
      (fun p => (key ++ "_batch_" ++ toString (p.1 + 1), p.2))

/-- The pathology input of the C2 counterexample: one entity, one date,
one entry. -/
def c2PathData : List (String × List (Val × List PathEntry)) :=
  [("P1", [(Val.vnone, [⟨"desc text", ""⟩])])]

/-- The extracted text of that entity. -/
def c2Text : String := "**Result Description**: desc text\n"

/-- A tokenizer under which `c2Text` needs exactly two chunks. -/
def c2Tok : String → Nat :=
  fun s => if s = c2Text then 200000 else 60000

/-- Claim C2, counterexample: the pathology dispatcher ignores token
counts entirely — for an entity whose text exceeds the budget (here
200000 tokens against the 120000 budget, requiring two chunks under the
contract) it still emits the single unsuffixed request `("P1", text)`
rather than the two `_batch_`-suffixed chunk requests the claim
demands. -/
theorem c2_counterexample :
    generate_api_requests_pathology c2PathData = [("P1", c2Text)] ∧
    c2Tok c2Text > 120000 ∧
    generate_api_requests_pathology c2PathData ≠
      dispatcher_contract_requests c2Tok 120000 "P1" c2Text ∧
    (dispatcher_contract_requests c2Tok 120000 "P1" c2Text).map Prod.fst =
      ["P1_batch_1", "P1_batch_2"] := by
  refine ⟨by decide, by decide, by decide, by decide⟩

/-- Claim C2, amended: the contract holds for the clinical dispatcher
for every entity whose combined text is non-empty (empty-text entities
emit no request, and the budget test compares `count_tokens` of the
combined text while the chunk boundaries use running sums of per-word
counts); the pathology dispatcher instead performs no chunking at all:
it emits at most one request per entity, always under the entity's
original key, in entity order. -/
theorem c2_amended :
    (∀ (tok : String → Nat) (maxT : Nat)
       (data : List (String × List String)),
       generate_api_requests_all_texts tok maxT data =
         data.flatMap (fun p =>
           if py_join "\n\n" p.2 = "" then []
           else dispatcher_contract_requests tok maxT p.1
             (py_join "\n\n" p.2))) ∧
    (∀ (data : List (String × List (Val × List PathEntry)))
       (g : Option String),
       List.Sublist ((generate_api_requests_pathology_aux data g).map Prod.fst)
         (data.map Prod.fst)) := by
  constructor
  · intro tok maxT data
    unfold generate_api_requests_all_texts
    congr 1
    funext p
    unfold clinical_entity_requests dispatcher_contract_requests
    by_cases hc : py_join "\n\n" p.2 = ""
    · simp [hc]
    · simp only [if_neg hc, if_pos (by exact hc : ¬ py_join "\n\n" p.2 = "")]
      by_cases ht : tok (py_join "\n\n" p.2) > maxT
      · rw [if_pos ht, if_neg (by omega)]
      · rw [if_neg ht, if_pos (by omega)]
  · intro data
    induction data with
    | nil => intro g; simp [generate_api_requests_pathology_aux]
    | cons hd rest ih =>
      intro g
      obtain ⟨id, dates⟩ := hd
      simp only [generate_api_requests_pathology_aux]
      cases hf : dates.foldl
          (fun _ d => some (extract_combined_text_for_baznat d.2)) g with
      | none => exact (ih none).cons id
      | some t =>
        by_cases hne : t ≠ ""
        · simp only [if_pos hne, List.map_cons]
          exact (ih (some t)).cons₂ id
        · simp only [if_neg hne]
          exact (ih (some t)).cons id

/-! ### Dual-source combiners (`__main__.combine_genetic_metadata`,
`combine_metastases_data`, `combine_ptnm_data`) -/

/-- `__main__.combine_genetic_metadata`: format both sides, prefer the
clinical side when the pathology side formats to `'None'`, label and
concatenate when both are present, fall back to the pathology side, and
collapse a falsy result to `'None'`. -/
def combine_genetic_metadata (pathology_metadata medical_texts_metadata : Val) :
    String :=
  let p := format_data pathology_metadata
  let m := format_data medical_texts_metadata
  let combined :=
    if p = "None" then m
    else if p ≠ "None" ∧ m ≠ "None" then
      py_strip ("Pathology report: " ++ p ++ "\n\nMedical texts: " ++ m)
    else p
  if combined ≠ "" then combined else "None"

/-- `__main__.combine_metastases_data`: identical branch structure to
`combine_genetic_metadata`. -/
def combine_metastases_data
    (pathology_metastases_data medical_texts_metastases_data : Val) : String :=
  let p := format_data pathology_metastases_data
  let m := format_data medical_texts_metastases_data
  let combined :=
    if p = "None" then m
    else if p ≠ "None" ∧ m ≠ "None" then
      py_strip ("Pathology report: " ++ p ++ "\n\nMedical texts: " ++ m)
    else p
  if combined ≠ "" then combined else "None"

/-- `__main__.combine_ptnm_data`: `combined_ptnm_data` starts as `None`
and, unlike the two combiners above, the branch chain has no final
`else`, so the pathology-only case leaves it `None`. -/
def combine_ptnm_data (pathology_ptnm_data medical_texts_ptnm_data : Val) :
    String :=
  let p := format_data pathology_ptnm_data
  let m := format_data medical_texts_ptnm_data
  let combined : Option String :=
    if p = "None" then some m
    else if p ≠ "None" ∧ m ≠ "None" then
      some (py_strip ("Pathology report: " ++ p ++ "\n\nMedical texts: " ++ m))
    else none
  match combined with
  | some s => if s ≠ "" then s else "None"
  | none => "None"

/-! Auxiliary facts about `strip`. -/

/-- The head of a non-empty `dropWhile` result fails the predicate. -/
theorem dropWhile_head_false {p : Char → Bool} :
    ∀ (l : List Char) {c : Char} {t : List Char},
      l.dropWhile p = c :: t → p c = false := by
  intro l
  induction l with
  | nil => intro c t h; simp [List.dropWhile] at h
  | cons a l ih =>
    intro c t h
    by_cases hp : p a
    · rw [List.dropWhile_cons, if_pos hp] at h
      exact ih h
    · rw [List.dropWhile_cons, if_neg hp] at h
      cases h
      simpa using hp

/-- The last character of a right strip fails the predicate. -/
theorem getLast?_dropRightWhileL {p : Char → Bool} (l : List Char) {c : Char}
    (h : (dropRightWhileL p l).getLast? = some c) : p c = false := by
  unfold dropRightWhileL at h
  rw [List.getLast?_reverse] at h
  cases hd : l.reverse.dropWhile p with
  | nil => rw [hd] at h; simp at h
  | cons a t =>
    rw [hd] at h
    simp only [List.head?_cons, Option.some.injEq] at h
    subst h
    exact dropWhile_head_false _ hd

/-- The last character of `str.strip()` output is not whitespace. -/
theorem getLast?_stripL {l : List Char} {c : Char}
    (h : (stripL l).getLast? = some c) : isPyWs c = false :=
  getLast?_dropRightWhileL (l.dropWhile isPyWs) h

/-- The last character of a `format_data` result is not whitespace
(`format_data` ends in `.strip()`). -/
theorem format_data_getLast_not_ws {w : Val} {c : Char}
    (h : (format_data w).data.getLast? = some c) : isPyWs c = false := by
  have hd : (format_data w).data = stripL (format_data_core w).data := rfl
  rw [hd] at h
  exact getLast?_stripL h

/-- `strip` is the identity on a list whose first and last characters
are not whitespace. -/
theorem stripL_eq_self {l : List Char}
    (h1 : ∀ c, l.head? = some c → isPyWs c = false)
    (h2 : ∀ c, l.getLast? = some c → isPyWs c = false) : stripL l = l := by
  have hd : l.dropWhile isPyWs = l := by
    cases l with
    | nil => rfl
    | cons a t =>
      rw [List.dropWhile_cons, h1 a rfl]
      simp
  unfold stripL dropRightWhileL
  rw [hd]
  have hr : l.reverse.dropWhile isPyWs = l.reverse := by
    cases hrev : l.reverse with
    | nil => rfl
    | cons a t =>
      have ha : l.getLast? = some a := by
        rw [← List.head?_reverse, hrev]; rfl
      rw [List.dropWhile_cons, h2 a ha]
      simp
  rw [hr, List.reverse_reverse]

/-- Stripping the labelled dual-source concatenation is the identity
when the clinical side is non-empty with a non-whitespace last
character: the string starts with the literal `P` of
`"Pathology report: "`. -/
theorem py_strip_labeled (P C : String) (hC : C ≠ "")
    (hlast : ∀ c, C.data.getLast? = some c → isPyWs c = false) :
    py_strip ("Pathology report: " ++ P ++ "\n\nMedical texts: " ++ C) =
      "Pathology report: " ++ P ++ "\n\nMedical texts: " ++ C := by
  apply String.ext
  show stripL ("Pathology report: " ++ P ++ "\n\nMedical texts: " ++ C).data =
    ("Pathology report: " ++ P ++ "\n\nMedical texts: " ++ C).data
  have hCd : C.data ≠ [] := by
    intro hnil
    exact hC (String.ext hnil)
  apply stripL_eq_self
  · intro c hc
    rw [String.data_append, String.data_append, String.data_append] at hc
    have hlit : ("Pathology report: ".data) = 'P' :: "athology report: ".data := rfl
    rw [hlit, List.cons_append, List.cons_append, List.cons_append] at hc
    simp only [List.head?_cons, Option.some.injEq] at hc
    subst hc
    decide
  · intro c hc
    rw [String.data_append, String.data_append, String.data_append] at hc
    rw [List.append_assoc, List.append_assoc, List.getLast?_append] at hc
    rw [List.getLast?_append] at hc
    rw [List.getLast?_append] at hc
    cases hlast2 : C.data.getLast? with
    | none => exact absurd (List.getLast?_eq_none_iff.mp hlast2) hCd
    | some c2 =>
      rw [hlast2] at hc
      simp only [Option.or_some, Option.some.injEq] at hc
      subst hc
      exact hlast c2 hlast2

/-! ### Claim C3: dual-source labeled concatenation -/

/-- The labelled concatenation is never the empty string. -/
theorem label_concat_ne_empty (P M : String) :
    "Pathology report: " ++ P ++ "\n\nMedical texts: " ++ M ≠ "" := by
  intro h
  have hd := congrArg String.data h
  rw [String.data_append, String.data_append, String.data_append] at hd
  have hlit : ("Pathology report: ".data) = 'P' :: "athology report: ".data := rfl
  rw [hlit] at hd
  simp at hd

/-- Claim C3, counterexample: for the pTNM field with only the pathology
side present (`p = "pT3N0M0"`, clinical side `'None'`), the claim says
the pathology side is returned; `combine_ptnm_data` instead returns
`'None'` (its branch chain has no `else`, so `combined_ptnm_data` stays
`None`). -/
theorem c3_counterexample :
    combine_ptnm_data (.vstr "pT3N0M0") (.vstr "None") = "None" ∧
    format_data (.vstr "pT3N0M0") = "pT3N0M0" ∧
    ("None" : String) ≠ "pT3N0M0" := by
  have h1 : format_data (.vstr "pT3N0M0") = "pT3N0M0" := by
    simp [format_data, format_data_core, py_strip, stripL, dropRightWhileL, isPyWs]
  have h2 : format_data (.vstr "None") = "None" := by
    simp [format_data, format_data_core, py_strip, stripL, dropRightWhileL, isPyWs]
  refine ⟨?_, h1, by decide⟩
  simp only [combine_ptnm_data, h1, h2]
  rw [if_neg (by decide), if_neg (by decide)]

/-- Claim C3, amended: with both inputs rendered by `format_data`, and
provided neither rendering is the empty string (an empty rendering is
collapsed to `'None'` by the final truthiness fallback): if the
pathology side is `'None'` all three combiners return the clinical
side; if both sides are present and not `'None'` all three return
`"Pathology report: {p}"`, a blank line, and `"Medical texts: {c}"`;
if only the pathology side is present, the genetic-metadata and
metastases combiners return it but `combine_ptnm_data` returns
`'None'`; if both sides are `'None'` the result is `'None'`. -/
theorem c3_amended (v w : Val)
    (hp : format_data v ≠ "") (hm : format_data w ≠ "") :
    (format_data v = "None" →
      combine_genetic_metadata v w = format_data w ∧
      combine_metastases_data v w = format_data w ∧
      combine_ptnm_data v w = format_data w) ∧
    (format_data v ≠ "None" → format_data w ≠ "None" →
      combine_genetic_metadata v w =
        "Pathology report: " ++ format_data v ++
          "\n\nMedical texts: " ++ format_data w ∧
      combine_metastases_data v w =
        "Pathology report: " ++ format_data v ++
          "\n\nMedical texts: " ++ format_data w ∧
      combine_ptnm_data v w =
        "Pathology report: " ++ format_data v ++
          "\n\nMedical texts: " ++ format_data w) ∧
    (format_data v ≠ "None" → format_data w = "None" →
      combine_genetic_metadata v w = format_data v ∧
      combine_metastases_data v w = format_data v ∧
      combine_ptnm_data v w = "None") ∧
    (format_data v = "None" → format_data w = "None" →
      combine_genetic_metadata v w = "None" ∧
      combine_metastases_data v w = "None" ∧
      combine_ptnm_data v w = "None") := by
  have hlabel : py_strip ("Pathology report: " ++ format_data v ++
      "\n\nMedical texts: " ++ format_data w) =
      "Pathology report: " ++ format_data v ++
        "\n\nMedical texts: " ++ format_data w :=
    py_strip_labeled _ _ hm (fun c hc => format_data_getLast_not_ws hc)
  refine ⟨?_, ?_, ?_, ?_⟩
  · intro hP
    refine ⟨?_, ?_, ?_⟩
    · simp only [combine_genetic_metadata, if_pos hP]
      rw [if_pos hm]
    · simp only [combine_metastases_data, if_pos hP]
      rw [if_pos hm]
    · simp only [combine_ptnm_data, if_pos hP]
      rw [if_pos hm]
  · intro hP hM
    refine ⟨?_, ?_, ?_⟩
    · simp only [combine_genetic_metadata, if_neg hP, if_pos (And.intro hP hM),
        hlabel]
      rw [if_pos (label_concat_ne_empty _ _)]
    · simp only [combine_metastases_data, if_neg hP, if_pos (And.intro hP hM),
        hlabel]
      rw [if_pos (label_concat_ne_empty _ _)]
    · simp only [combine_ptnm_data, if_neg hP, if_pos (And.intro hP hM), hlabel]
      rw [if_pos (label_concat_ne_empty _ _)]
  · intro hP hM
    have hcond : ¬ (format_data v ≠ "None" ∧ format_data w ≠ "None") :=
      fun hand => hand.2 hM
    refine ⟨?_, ?_, ?_⟩
    · simp only [combine_genetic_metadata, if_neg hP, if_neg hcond]
      rw [if_pos hp]
    · simp only [combine_metastases_data, if_neg hP, if_neg hcond]
      rw [if_pos hp]
    · simp only [combine_ptnm_data, if_neg hP, if_neg hcond]
  · intro hP hM
    refine ⟨?_, ?_, ?_⟩
    · simp only [combine_genetic_metadata, if_pos hP, hM]
      rw [if_pos (by decide : ("None" : String) ≠ "")]
    · simp only [combine_metastases_data, if_pos hP, hM]
      rw [if_pos (by decide : ("None" : String) ≠ "")]
    · simp only [combine_ptnm_data, if_pos hP, hM]
      rw [if_pos (by decide : ("None" : String) ≠ "")]

/-- Claim C3, witness: the both-present case at `p = "pT2"`,
`c = "N1"`. -/
theorem c3_witness :
    format_data (Val.vstr "pT2") ≠ "" ∧ format_data (Val.vstr "N1") ≠ "" ∧
    combine_genetic_metadata (.vstr "pT2") (.vstr "N1") =
      "Pathology report: pT2\n\nMedical texts: N1" := by
  have h1 : format_data (.vstr "pT2") = "pT2" := by
    simp [format_data, format_data_core, py_strip, stripL, dropRightWhileL, isPyWs]
  have h2 : format_data (.vstr "N1") = "N1" := by
    simp [format_data, format_data_core, py_strip, stripL, dropRightWhileL, isPyWs]
  have hp : format_data (Val.vstr "pT2") ≠ "" := by rw [h1]; decide
  have hm : format_data (Val.vstr "N1") ≠ "" := by rw [h2]; decide
  refine ⟨hp, hm, ?_⟩
  have := ((c3_amended (.vstr "pT2") (.vstr "N1") hp hm).2.1
    (by rw [h1]; decide) (by rw [h2]; decide)).1
  rw [this, h1, h2]
  decide

deriving instance DecidableEq for Except

/-! ### Family history (`__main__.format_family_history`) -/

/-- The mutations text of one relative record: the joined `mutations`
list when it is truthy (`', '.join` raises a `TypeError` when an
element is not a string), `"Unknown"` otherwise. -/
def mutationsText (rd : List (String × Val)) : Except PyErr String :=
  if pyTruthy (dGetD rd "mutations" .vnone) then
    pyJoinIter ", " (dGetD rd "mutations" (.vlist [.vstr "Unknown"]))
  else .ok "Unknown"

/-- The full `Relative/Condition/Age of onset/Mutations` block of one
relative record (missing fields default to `"Unknown"`, values pass
through `str`). -/
def relBlockStr (rd : List (String × Val)) (mtext : String) : String :=
  "  Relative: " ++ py_str (dGetD rd "relative" (.vstr "Unknown")) ++ "\n" ++
  "  Condition: " ++ py_str (dGetD rd "condition" (.vstr "Unknown")) ++ "\n" ++
  "  Age of onset: " ++ py_str (dGetD rd "age_of_onset" (.vstr "Unknown")) ++
    "\n" ++
  "  Mutations: " ++ mtext ++ "\n\n"

/-- The relatives loop of `format_family_history` for one side: returns
the accumulated `side_output` tail (after the `"Side:\n"` header) and
the `has_valid_data` flag; a record with no truthy value contributes
the literal `" None\n\n"` line, any other dict record the full block; a
non-dict record raises (`relative_data.values()`), aborting the whole
rendering. -/
def ffhRels : List Val → Except PyErr (String × Bool)
  | [] => .ok ("", false)
  | .vdict rd :: rest =>
    if !(rd.any (fun kv => pyTruthy kv.2)) then
      match ffhRels rest with
      | .ok (txt, valid) => .ok (" None\n\n" ++ txt, valid)
      | .error e => .error e
    else
      match mutationsText rd with
      | .error e => .error e
      | .ok mtext =>
        match ffhRels rest with
        | .ok (txt, _) => .ok (relBlockStr rd mtext ++ txt, true)
        | .error e => .error e
  | _ :: _ => .error .attrError

/-- The sides loop of `format_family_history`: each side renders either
`"Side:\n"` plus the relatives text (when some relative had valid
data) or `"Side: None\n\n"`; an exception while processing a side
abandons that side and all later ones (the `except` branch falls
through to the return, keeping only the previously accumulated
sides). -/
def ffhSides : List (String × Val) → String
  | [] => ""
  | (side, rels) :: rest =>
    match pyIter rels with
    | .error _ => ""
    | .ok items =>
      match ffhRels items with
      | .ok (txt, valid) =>
        (if valid then py_capitalize side ++ ":\n" ++ txt
         else py_capitalize side ++ ": None\n\n") ++ ffhSides rest
      | .error _ => ""

/-- `__main__.format_family_history`: iterate the sides of the
family-history mapping and `.strip()` the result; a non-dict argument
raises immediately inside the `try` and the empty accumulator is
returned. -/
def format_family_history (v : Val) : String :=
  match v with
  | .vdict sides => py_strip (ffhSides sides)
  | _ => ""

/-! ### Claim C5: family-history rendering -/

/-- Claim C5, counterexample: a maternal side holding one fully-empty
relative record and one record with a non-empty condition.  The claim
says every record — including the empty one — renders as a full
`Relative/Condition/Age of onset/Mutations` block; in the code the
empty record renders as the bare `" None"` line (directly after the
side header), and only the non-empty record gets a block. -/
theorem c5_counterexample :
    format_family_history
        (.vdict [("maternal",
          .vlist [Val.vdict [], Val.vdict [("condition", .vstr "cancer")]])]) =
      "Maternal:\n None\n\n  Relative: Unknown\n  Condition: cancer\n" ++
        "  Age of onset: Unknown\n  Mutations: Unknown" ∧
    hasSubL "Maternal:\n None".data
      (format_family_history
        (.vdict [("maternal",
          .vlist [Val.vdict [], Val.vdict [("condition", .vstr "cancer")]])])).data
      = true := by
  constructor
  · decide
  · decide

/-- Claim C5, amended: a side all of whose relative records are dicts
with no truthy field renders as `"Side: None"`; and in a side holding
one fully-empty record followed by a record with a truthy field (whose
mutations join succeeds), the empty record renders as the `" None"`
line while the non-empty record renders as the full block — empty
records never render as blocks. -/
theorem c5_amended :
    (∀ (s : String) (rls : List (List (String × Val))),
      (∀ kvs ∈ rls, ∀ kv ∈ kvs, pyTruthy kv.2 = false) →
      format_family_history (.vdict [(s, .vlist (rls.map Val.vdict))]) =
        py_strip (py_capitalize s ++ ": None\n\n")) ∧
    (∀ (s : String) (kvs : List (String × Val)) (mtext : String),
      kvs.any (fun kv => pyTruthy kv.2) = true →
      mutationsText kvs = .ok mtext →
      format_family_history
          (.vdict [(s, .vlist [Val.vdict [], Val.vdict kvs])]) =
        py_strip (py_capitalize s ++ ":\n" ++ " None\n\n" ++
          relBlockStr kvs mtext)) := by
  constructor
  · intro s rls hall
    have key : ∀ (rls' : List (List (String × Val))),
        (∀ kvs ∈ rls', ∀ kv ∈ kvs, pyTruthy kv.2 = false) →
        ∃ txt, ffhRels (rls'.map Val.vdict) = .ok (txt, false) := by
      intro rls'
      induction rls' with
      | nil => intro _; exact ⟨"", rfl⟩
      | cons kvs rest ih =>
        intro hall'
        obtain ⟨txt, htxt⟩ := ih (fun a ha kv hkv => hall' a (by simp [ha]) kv hkv)
        have hany : kvs.any (fun kv => pyTruthy kv.2) = false := by
          rw [List.any_eq_false]
          intro kv hkv
          simp [hall' kvs (by simp) kv hkv]
        refine ⟨" None\n\n" ++ txt, ?_⟩
        simp only [List.map_cons, ffhRels, hany, Bool.not_false, if_pos, htxt]
    obtain ⟨txt, htxt⟩ := key rls hall
    simp only [format_family_history, ffhSides, pyIter, htxt]
    simp
  · intro s kvs mtext hany hmut
    have e1 : ffhRels [Val.vdict [], Val.vdict kvs] =
        .ok (" None\n\n" ++ (relBlockStr kvs mtext ++ ""), true) := by
      simp only [ffhRels, hany, hmut]
      simp
    simp only [format_family_history, ffhSides, pyIter, e1]
    simp only [String.append_empty, if_pos]
    apply congrArg
    apply String.ext
    simp [String.data_append, List.append_assoc]

/-- Claim C5, witness: the mixed scenario at a concrete side. -/
theorem c5_witness :
    (List.any [("condition", Val.vstr "cancer")]
      (fun kv => pyTruthy kv.2)) = true ∧
    mutationsText [("condition", Val.vstr "cancer")] = .ok "Unknown" ∧
    format_family_history
        (.vdict [("maternal",
          .vlist [Val.vdict [], Val.vdict [("condition", .vstr "cancer")]])]) =
      py_strip (py_capitalize "maternal" ++ ":\n" ++ " None\n\n" ++
        relBlockStr [("condition", Val.vstr "cancer")] "Unknown") :=
  ⟨by decide, by decide,
    c5_amended.2 "maternal" [("condition", Val.vstr "cancer")] "Unknown"
      (by decide) (by decide)⟩

/-! ### The response parser
(`__main__.extract_free_text_and_json_from_llm_analysis`)

The regex `` ```json\s*(\{.*?})\s*``` `` (DOTALL) is modelled by a
character scan: the match starts at an occurrence of `` ```json ``,
skips whitespace, requires an opening brace, and the lazy group ends at
the first closing brace that is followed by optional whitespace and a
closing fence.  `json.loads` is an external capability, a parameter
`jparse : String → Option Val` (`none` = `JSONDecodeError`). -/

/-- The opening brace character (`\x7b`). -/
def lbrace : Char := Char.ofNat 123

/-- The closing brace character (`\x7d`). -/
def rbrace : Char := Char.ofNat 125

/-- After the group's closing brace: `\s*` then the closing fence. -/
def fenceFollows (l : List Char) : Bool :=
  "```".data.isPrefixOf (l.dropWhile isPyWs)

/-- Scan for the lazy group's closing brace: the first `}` from which
optional whitespace and a closing fence follow; `acc` holds the group
content so far (reversed).  Returns the full captured group, braces
included. -/
def scanClose : List Char → List Char → Option (List Char)
  | [], _ => none
  | c :: r, acc =>
    if c = rbrace ∧ fenceFollows r then
      some (lbrace :: (acc.reverse ++ [rbrace]))
    else scanClose r (c :: acc)

/-- Try to complete a match of the fenced-JSON pattern starting exactly
here: `` ```json `` then `\s*` then `{`, handing over to
`scanClose`. -/
def tryMatchAt (l : List Char) : Option (List Char) :=
  if "```json".data.isPrefixOf l then
    match (l.drop 7).dropWhile isPyWs with
    | c :: r2 => if c = lbrace then scanClose r2 [] else none
    | [] => none
  else none

/-- `re.search` of the fenced-JSON pattern: the leftmost position where
the whole pattern matches, scanning left to right. -/
def findJP : List Char → Option (List Char)
  | [] => none
  | c :: t =>
    match tryMatchAt (c :: t) with
    | some g => some g
    | none => findJP t

/-- `__main__.extract_free_text_and_json_from_llm_analysis`: total by
construction — every Python-exception path (non-dict argument, whose
`.get` raises inside the outer `try`; non-string payload; missing
fence; failed JSON parse) is mapped to the accumulated
`(free_text, json_data)` pair, never an exception. -/
def extract_free_text_and_json (jparse : String → Option Val)
    (llm_analysis : Val) : String × Val :=
  match llm_analysis with
  | .vdict d =>
    match dGetD d "COMBINED_ANALYSIS" (.vstr "") with
    | .vstr s =>
      let free := py_strip ⟨takeBeforeL "```json".data s.data⟩
      match findJP s.data with
      | none => (free, .vdict [])
      | some grp =>
        match jparse (py_strip ⟨grp⟩) with
        | none => (free, .vdict [])
        | some j => (free, j)
    | _ => ("", .vdict [])
  | _ => ("", .vdict [])

/-! ### Claim C4: the parser degrades, never raises -/

/-- Claim C4: the response parser never raises — in the embedding every
case returns a pair — and degrades exactly as specified: a non-dict
argument or a non-string `COMBINED_ANALYSIS` payload yields
`("", {})`; a string payload with no fenced `` ```json `` block yields
the stripped text before the (absent) fence and `{}`; a fenced block
whose content fails to parse yields the stripped free text so far and
`{}`. -/
theorem c4_parser_degrades :
    (∀ (jparse : String → Option Val) (v : Val),
      (∀ d, v ≠ .vdict d) →
      extract_free_text_and_json jparse v = ("", .vdict [])) ∧
    (∀ (jparse : String → Option Val) (d : List (String × Val)),
      (∀ s, dGetD d "COMBINED_ANALYSIS" (.vstr "") ≠ .vstr s) →
      extract_free_text_and_json jparse (.vdict d) = ("", .vdict [])) ∧
    (∀ (jparse : String → Option Val) (d : List (String × Val)) (s : String),
      dGetD d "COMBINED_ANALYSIS" (.vstr "") = .vstr s →
      findJP s.data = none →
      extract_free_text_and_json jparse (.vdict d) =
        (py_strip ⟨takeBeforeL "```json".data s.data⟩, .vdict [])) ∧
    (∀ (jparse : String → Option Val) (d : List (String × Val)) (s : String)
       (grp : List Char),
      dGetD d "COMBINED_ANALYSIS" (.vstr "") = .vstr s →
      findJP s.data = some grp →
      jparse (py_strip ⟨grp⟩) = none →
      extract_free_text_and_json jparse (.vdict d) =
        (py_strip ⟨takeBeforeL "```json".data s.data⟩, .vdict [])) := by
  refine ⟨?_, ?_, ?_, ?_⟩
  · intro jparse v hv
    cases v with
    | vdict d => exact absurd rfl (hv d)
    | vnone => rfl
    | vbool b => rfl
    | vint n => rfl
    | vstr s => rfl
    | vlist xs => rfl
  · intro jparse d hs
    cases hval : dGetD d "COMBINED_ANALYSIS" (.vstr "") with
    | vstr s => exact absurd hval (hs s)
    | vnone => simp only [extract_free_text_and_json, hval]
    | vbool b => simp only [extract_free_text_and_json, hval]
    | vint n => simp only [extract_free_text_and_json, hval]
    | vlist xs => simp only [extract_free_text_and_json, hval]
    | vdict xs => simp only [extract_free_text_and_json, hval]
  · intro jparse d s hval hfind
    simp only [extract_free_text_and_json, hval, hfind]
  · intro jparse d s grp hval hfind hparse
    simp only [extract_free_text_and_json, hval, hfind, hparse]

/-- Claim C4, witness: the no-fence case on the payload `"hello"` with
a parser that always fails. -/
theorem c4_witness :
    findJP ("hello").data = none ∧
    extract_free_text_and_json (fun _ => none)
        (.vdict [("COMBINED_ANALYSIS", .vstr "hello")]) =
      (py_strip ⟨takeBeforeL "```json".data ("hello").data⟩, .vdict []) :=
  ⟨by decide,
    c4_parser_degrades.2.2.1 (fun _ => none)
      [("COMBINED_ANALYSIS", .vstr "hello")] "hello" rfl (by decide)⟩

/-! ### Batched analysis (`analyze_requests` of `all_texts_reader` and
`pathologic_report_reader`, and `openai_api.combine_batched_analyses`)

The two `analyze_requests` functions are textually identical up to the
LLM endpoint they call; the embedding takes the endpoint as the
parameter `analyze : String → Option String` (`none` = the endpoint's
`except` branch returned `None`).  The combine capability is
`combine_llm : String → Option String` likewise. -/

/-- The base-key recovery of `analyze_requests`:
`id.split('_batch')[0] if '_batch' in id else id`. -/
def baseKey (s : String) : String :=
  if hasSubL "_batch".data s.data then ⟨takeBeforeL "_batch".data s.data⟩
  else s

/-- All entries of the list, or `none` at the first `None` entry
(where Python's `str.join` raises its `TypeError`). -/
def seqOpts : List (Option String) → Option (List String)
  | [] => some []
  | none :: _ => none
  | some s :: t => (seqOpts t).map (fun r => s :: r)

/-- `openai_api.combine_batched_analyses`: the separator join happens
before the `try` block, so a `None` element raises a `TypeError` that
escapes the function; the LLM call itself is inside the `try` and its
failure is returned as `None`. -/
def combine_batched_analyses (combine_llm : String → Option String)
    (batched_analyses : List (Option String)) : Except PyErr (Option String) :=
  match seqOpts batched_analyses with
  | none => .error .typeError
  | some xs => .ok (combine_llm (py_join "\n\n--- Next Batch ---\n\n" xs))

/-- One entry of the results dict of `analyze_requests`: the ordered
batch responses and the `COMBINED_ANALYSIS` value. -/
structure EntityResult where
  batches : List (Option String)
  combinedAnalysis : Option String
deriving DecidableEq

/-- Append an analysis to the `batches` list of the entry for `k`,
creating the entry at the end when absent (Python dict insertion). -/
def appendBatch :
    List (String × List (Option String)) → String → Option String →
      List (String × List (Option String))
  | [], k, a => [(k, [a])]
  | (k2, bs) :: t, k, a =>
    if k2 = k then (k2, bs ++ [a]) :: t else (k2, bs) :: appendBatch t k a

/-- `batch_counts[k] = batch_counts.get(k, 0) + 1`. -/
def bumpCount : List (String × Nat) → String → List (String × Nat)
  | [], k => [(k, 1)]
  | (k2, n) :: t, k =>
    if k2 = k then (k2, n + 1) :: t else (k2, n) :: bumpCount t k

/-- The per-request loop of `analyze_requests`: analyse each request,
group the responses under the base key, count batches.  The endpoint
never raises (all its failures return `None`), so this loop always
completes. -/
def analyzeLoop (analyze : String → Option String) :
    List (String × String) → List (String × List (Option String)) →
      List (String × Nat) →
      List (String × List (Option String)) × List (String × Nat)
  | [], res, cnt => (res, cnt)
  | (id_baznat, text) :: rest, res, cnt =>
    analyzeLoop analyze rest
      (appendBatch res (baseKey id_baznat) (analyze text))
      (bumpCount cnt (baseKey id_baznat))

/-- The per-entity body of the combining loop: entities with more than
one batch go through `combine_batched_analyses` (which can raise),
entities with one batch take `batches[0]` unchanged. -/
def processEntity (combine_llm : String → Option String)
    (cnt : List (String × Nat)) (k : String) (bs : List (Option String)) :
    Except PyErr EntityResult :=
  if (alookup cnt k).getD 0 > 1 then
    match combine_batched_analyses combine_llm bs with
    | .ok ca => .ok ⟨bs, ca⟩
    | .error e => .error e
  else
    match bs with
    | [] => .error .indexError
    | b0 :: _ => .ok ⟨bs, b0⟩

/-- The combining loop of `analyze_requests` over the accumulated
entries, in insertion order; the first exception aborts the whole
function. -/
def combineLoop (combine_llm : String → Option String)
    (cnt : List (String × Nat)) :
    List (String × List (Option String)) →
      Except PyErr (List (String × EntityResult))
  | [] => .ok []
  | (k, bs) :: t =>
    match processEntity combine_llm cnt k bs with
    | .error e => .error e
    | .ok r =>
      match combineLoop combine_llm cnt t with
      | .error e => .error e
      | .ok m => .ok ((k, r) :: m)

/-- `analyze_requests(api_requests)` (both readers): the per-request
loop followed by the combining loop. -/
def analyze_requests (analyze combine_llm : String → Option String)
    (api_requests : List (String × String)) :
    Except PyErr (List (String × EntityResult)) :=
  match analyzeLoop analyze api_requests [] [] with
  | (res, cnt) => combineLoop combine_llm cnt res

/-! ### Claim C1: failure isolation across the batch loop -/

/-- Claim C1: the claim (and the spec's propagation policy) says a
`None` response stays isolated and the batch-analysis loop — including
the combining of an entity's batched responses when some are `None` —
always completes.  The code instead raises: `combine_batched_analyses`
joins the batch list before its `try` block, so with two batched
requests for entity `P` whose first analysis failed (`None`) the join
raises `TypeError` and `analyze_requests` aborts, taking every entity
down with it.  This theorem evaluates the embedded code at that
failing input. -/
theorem c1_none_batch_raises :
    analyze_requests (fun t => if t = "a" then none else some "ok")
        (fun _ => some "combined")
        [("P_batch_1", "a"), ("P_batch_2", "b")] = .error .typeError := by
  rfl

/-! ### Claim C9: single-response combining is the identity -/

/-- Lookup after `appendBatch`. -/
theorem alookup_appendBatch (res : List (String × List (Option String)))
    (k : String) (a : Option String) (b : String) :
    alookup (appendBatch res k a) b =
      if b = k then some ((alookup res k).getD [] ++ [a])
      else alookup res b := by
  induction res with
  | nil =>
    simp only [appendBatch, alookup]
    by_cases h : k = b
    · simp [h]
    · simp [h, Ne.symm h]
  | cons hd t ih =>
    obtain ⟨k2, bs⟩ := hd
    by_cases hk2 : k2 = k
    · subst hk2
      simp only [appendBatch, if_pos rfl, alookup, if_pos rfl, Option.getD_some]
      by_cases hb : k2 = b
      · simp [hb]
      · simp [hb, Ne.symm hb]
    · simp only [appendBatch, if_neg hk2, alookup]
      by_cases hb : k2 = b
      · have hbk : ¬ b = k := fun h => hk2 (hb.trans h)
        simp [hb, hbk]
      · simp [hb, ih, hk2]

/-- Count lookup after `bumpCount`. -/
theorem alookup_bumpCount (cnt : List (String × Nat)) (k b : String) :
    (alookup (bumpCount cnt k) b).getD 0 =
      if b = k then (alookup cnt k).getD 0 + 1
      else (alookup cnt b).getD 0 := by
  induction cnt with
  | nil =>
    simp only [bumpCount, alookup]
    by_cases h : k = b
    · simp [h]
    · simp [h, Ne.symm h]
  | cons hd t ih =>
    obtain ⟨k2, n⟩ := hd
    by_cases hk2 : k2 = k
    · subst hk2
      simp only [bumpCount, if_pos rfl, alookup, if_pos rfl, Option.getD_some]
      by_cases hb : k2 = b
      · simp [hb]
      · simp [hb, Ne.symm hb]
    · simp only [bumpCount, if_neg hk2, alookup]
      by_cases hb : k2 = b
      · have hbk : ¬ b = k := fun h => hk2 (hb.trans h)
        simp [hb, hbk]
      · simp [hb, ih, hk2]

/-- The grouped batches after the per-request loop: for base key `b`,
the accumulated entry extends its prior value with the analyses of
exactly the requests whose base key is `b`, in request order. -/
theorem analyzeLoop_batches_getD (analyze : String → Option String) :
    ∀ (reqs : List (String × String))
      (res : List (String × List (Option String)))
      (cnt : List (String × Nat)) (b : String),
      (alookup (analyzeLoop analyze reqs res cnt).1 b).getD [] =
        (alookup res b).getD [] ++
          (reqs.filter (fun r => baseKey r.1 == b)).map
            (fun r => analyze r.2) := by
  intro reqs
  induction reqs with
  | nil => intro res cnt b; simp [analyzeLoop]
  | cons hd rest ih =>
    intro res cnt b
    obtain ⟨id_baznat, text⟩ := hd
    simp only [analyzeLoop]
    rw [ih]
    by_cases hb : baseKey id_baznat = b
    · rw [List.filter_cons_of_pos (by simpa using hb)]
      rw [alookup_appendBatch, if_pos hb.symm]
      subst hb
      simp
    · rw [List.filter_cons_of_neg (by simpa using hb)]
      rw [alookup_appendBatch, if_neg (fun h => hb h.symm)]

/-- Presence of a base key after the per-request loop. -/
theorem analyzeLoop_batches_isSome (analyze : String → Option String) :
    ∀ (reqs : List (String × String))
      (res : List (String × List (Option String)))
      (cnt : List (String × Nat)) (b : String),
      (alookup (analyzeLoop analyze reqs res cnt).1 b).isSome =
        ((alookup res b).isSome ||
          !(reqs.filter (fun r => baseKey r.1 == b)).isEmpty) := by
  intro reqs
  induction reqs with
  | nil => intro res cnt b; simp [analyzeLoop]
  | cons hd rest ih =>
    intro res cnt b
    obtain ⟨id_baznat, text⟩ := hd
    simp only [analyzeLoop]
    rw [ih]
    by_cases hb : baseKey id_baznat = b
    · rw [List.filter_cons_of_pos (by simpa using hb)]
      rw [alookup_appendBatch, if_pos hb.symm]
      simp
    · rw [List.filter_cons_of_neg (by simpa using hb)]
      rw [alookup_appendBatch, if_neg (fun h => hb h.symm)]

/-- The batch counts after the per-request loop. -/
theorem analyzeLoop_counts (analyze : String → Option String) :
    ∀ (reqs : List (String × String))
      (res : List (String × List (Option String)))
      (cnt : List (String × Nat)) (b : String),
      (alookup (analyzeLoop analyze reqs res cnt).2 b).getD 0 =
        (alookup cnt b).getD 0 +
          (reqs.filter (fun r => baseKey r.1 == b)).length := by
  intro reqs
  induction reqs with
  | nil => intro res cnt b; simp [analyzeLoop]
  | cons hd rest ih =>
    intro res cnt b
    obtain ⟨id_baznat, text⟩ := hd
    simp only [analyzeLoop]
    rw [ih]
    by_cases hb : baseKey id_baznat = b
    · rw [List.filter_cons_of_pos (by simpa using hb)]
      rw [alookup_bumpCount, if_pos hb.symm]
      subst hb
      simp
      omega
    · rw [List.filter_cons_of_neg (by simpa using hb)]
      rw [alookup_bumpCount, if_neg (fun h => hb h.symm)]

/-- When the combining loop succeeds, each accumulated entry was
processed successfully and appears in the results under its key. -/
theorem combineLoop_ok_lookup (combine_llm : String → Option String)
    (cnt : List (String × Nat)) :
    ∀ (l : List (String × List (Option String)))
      (m : List (String × EntityResult)),
      combineLoop combine_llm cnt l = .ok m →
      ∀ (b : String) (bs : List (Option String)),
        alookup l b = some bs →
        ∃ r, processEntity combine_llm cnt b bs = .ok r ∧
          alookup m b = some r := by
  intro l
  induction l with
  | nil => intro m hm b bs hb; simp [alookup] at hb
  | cons hd t ih =>
    intro m hm b bs hb
    obtain ⟨k, kbs⟩ := hd
    simp only [combineLoop] at hm
    cases hpe : processEntity combine_llm cnt k kbs with
    | error e => rw [hpe] at hm; simp at hm
    | ok r =>
      rw [hpe] at hm
      cases hcl : combineLoop combine_llm cnt t with
      | error e => rw [hcl] at hm; simp at hm
      | ok m2 =>
        rw [hcl] at hm
        cases hm
        simp only [alookup] at hb ⊢
        by_cases hk : k = b
        · subst hk
          rw [if_pos rfl] at hb ⊢
          cases hb
          exact ⟨r, hpe, rfl⟩
        · rw [if_neg hk] at hb ⊢
          exact ih m2 hcl b bs hb

/-- Claim C9: for an entity whose dispatch produced exactly one
response (exactly one request with its base key), combining is the
identity: whenever `analyze_requests` completes, that entity's
`COMBINED_ANALYSIS` is its single response unchanged, and this holds
for *every* combine capability `combine_llm` — the combine capability
is not invoked for that entity. -/
theorem c9_single_response_identity
    (analyze combine_llm : String → Option String)
    (reqs : List (String × String)) (id_baznat t : String)
    (hone : reqs.filter (fun r => baseKey r.1 == baseKey id_baznat) =
      [(id_baznat, t)])
    (m : List (String × EntityResult))
    (hok : analyze_requests analyze combine_llm reqs = .ok m) :
    alookup m (baseKey id_baznat) = some ⟨[analyze t], analyze t⟩ := by
  have hgetD := analyzeLoop_batches_getD analyze reqs [] [] (baseKey id_baznat)
  have hisSome :=
    analyzeLoop_batches_isSome analyze reqs [] [] (baseKey id_baznat)
  have hcnt := analyzeLoop_counts analyze reqs [] [] (baseKey id_baznat)
  rw [hone] at hgetD hisSome hcnt
  simp only [alookup, Option.getD_none, List.nil_append, List.map_cons,
    List.map_nil, Option.isSome_none, Bool.false_or, List.isEmpty_cons,
    Bool.not_false, List.length_cons, List.length_nil, Nat.zero_add]
    at hgetD hisSome hcnt
  have hres : alookup (analyzeLoop analyze reqs [] []).1 (baseKey id_baznat) =
      some [analyze t] := by
    cases hx : alookup (analyzeLoop analyze reqs [] []).1 (baseKey id_baznat) with
    | none => rw [hx] at hisSome; simp at hisSome
    | some v =>
      rw [hx] at hgetD
      simp only [Option.getD_some] at hgetD
      rw [hgetD]
  have hok2 : combineLoop combine_llm (analyzeLoop analyze reqs [] []).2
      (analyzeLoop analyze reqs [] []).1 = .ok m := hok
  obtain ⟨r, hper, hmr⟩ :=
    combineLoop_ok_lookup combine_llm (analyzeLoop analyze reqs [] []).2
      (analyzeLoop analyze reqs [] []).1 m hok2 (baseKey id_baznat)
      [analyze t] hres
  unfold processEntity at hper
  rw [hcnt] at hper
  simp only [Nat.lt_irrefl, if_false, gt_iff_lt, if_neg] at hper
  cases hper
  exact hmr

/-- Claim C9, witness: two single-request entities `A` and `B`; the
theorem applied to `A` with a combine capability that always fails
(showing it is never consulted). -/
theorem c9_witness :
    (([("A", "x"), ("B", "y")] : List (String × String)).filter
        (fun r => baseKey r.1 == baseKey "A") = [("A", "x")]) ∧
    alookup
        [("A", EntityResult.mk [some "x!"] (some "x!")),
         ("B", EntityResult.mk [some "y!"] (some "y!"))] (baseKey "A") =
      some ⟨[some "x!"], some "x!"⟩ :=
  ⟨by decide,
    c9_single_response_identity (fun s => some (s ++ "!")) (fun _ => none)
      [("A", "x"), ("B", "y")] "A" "x" (by decide)
      [("A", ⟨[some "x!"], some "x!"⟩), ("B", ⟨[some "y!"], some "y!"⟩)] rfl⟩

/-! ### Claim C10: base-key recovery splits on the first `_batch` -/

/-- Splitting one step off a failed substring search. -/
theorem hasSubL_cons_false {pat : List Char} {c : Char} {t : List Char}
    (h : hasSubL pat (c :: t) = false) :
    pat.isPrefixOf (c :: t) = false ∧ hasSubL pat t = false := by
  unfold hasSubL takeBeforeAux at h
  cases hx : pat.isPrefixOf (c :: t) with
  | true => simp [hx] at h
  | false =>
    simp only [hx, Bool.false_eq_true, if_false] at h
    refine ⟨rfl, ?_⟩
    unfold hasSubL
    simpa using h

/-- A successful prefix search leaves room for the pattern. -/
theorem takeBeforeAux_length (pat : List Char) :
    ∀ (l p : List Char), takeBeforeAux pat l = some p →
      p.length + pat.length ≤ l.length := by
  intro l
  induction l with
  | nil =>
    intro p hp
    unfold takeBeforeAux at hp
    by_cases h : pat.isPrefixOf ([] : List Char)
    · rw [if_pos h] at hp
      cases hp
      have : pat <+: ([] : List Char) := List.isPrefixOf_iff_prefix.mp h
      have := this.length_le
      simpa using this
    · rw [if_neg h] at hp
      cases hp
  | cons c t ih =>
    intro p hp
    unfold takeBeforeAux at hp
    by_cases h : pat.isPrefixOf (c :: t)
    · rw [if_pos h] at hp
      cases hp
      have : pat <+: (c :: t) := List.isPrefixOf_iff_prefix.mp h
      simpa using this.length_le
    · rw [if_neg h] at hp
      cases hq : takeBeforeAux pat t with
      | none => rw [hq] at hp; cases hp
      | some q =>
        rw [hq] at hp
        cases hp
        have := ih q hq
        simp only [List.length_cons]
        omega

/-- Claim C10: base-key recovery splits on the *first* occurrence of
`'_batch'` anywhere in the request id.  (a) For any key of the shape
`b ++ "_batch" ++ r` where `b` itself is `'_batch'`-free, the prefix
found is exactly `b` (the pattern `'_batch'` cannot overlap itself, so
no occurrence can span the boundary); (b) any key containing
`'_batch'` is truncated — the results mapping never stores it under the
original key; (c) concretely, the two distinct entity keys
`"A_batchX"` and `"A_batchY"` are merged under the single base key
`"A"`, their two responses become one two-batch entry (sent to the
combine capability), and the results mapping has no `"A_batchX"`
entry. -/
theorem c10_basekey_first_batch_split :
    (∀ (b r : List Char), hasSubL "_batch".data b = false →
      takeBeforeAux "_batch".data (b ++ "_batch".data ++ r) = some b) ∧
    (∀ s : String, hasSubL "_batch".data s.data = true → baseKey s ≠ s) ∧
    (∀ combine_llm : String → Option String,
      analyze_requests (fun t => some ("an:" ++ t)) combine_llm
          [("A_batchX", "t1"), ("A_batchY", "t2")] =
        .ok [("A", ⟨[some "an:t1", some "an:t2"],
          combine_llm "an:t1\n\n--- Next Batch ---\n\nan:t2"⟩)] ∧
      alookup [("A", EntityResult.mk [some "an:t1", some "an:t2"]
          (combine_llm "an:t1\n\n--- Next Batch ---\n\nan:t2"))] "A_batchX" =
        none) := by
  refine ⟨?_, ?_, ?_⟩
  · intro b
    induction b with
    | nil =>
      intro r hb
      rw [List.nil_append]
      have hpref : "_batch".data.isPrefixOf ("_batch".data ++ r) = true :=
        List.isPrefixOf_iff_prefix.mpr (List.prefix_append _ _)
      rw [show "_batch".data ++ r = '_' :: ("batch".data ++ r) from rfl] at hpref ⊢
      simp [takeBeforeAux, hpref]
    | cons c b ih =>
      intro r hb
      obtain ⟨hnp0, hb'⟩ := hasSubL_cons_false hb
      have hshape : (c :: b) ++ "_batch".data ++ r =
          c :: (b ++ "_batch".data ++ r) := by simp
      rw [hshape]
      have hnp : "_batch".data.isPrefixOf (c :: (b ++ "_batch".data ++ r)) =
          false := by
        by_contra hcon
        have hp : "_batch".data.isPrefixOf
            (c :: (b ++ "_batch".data ++ r)) = true := by
          revert hcon
          cases "_batch".data.isPrefixOf (c :: (b ++ "_batch".data ++ r)) <;>
            simp
        have hpre : "_batch".data <+: (c :: b) ++ ("_batch".data ++ r) := by
          rw [show (c :: b) ++ ("_batch".data ++ r) =
            c :: (b ++ "_batch".data ++ r) from by simp]
          exact List.isPrefixOf_iff_prefix.mp hp
        have htake := List.prefix_iff_eq_take.mp hpre
        rw [List.take_append_eq_append_take] at htake
        rcases le_or_lt ("_batch".data).length ((c :: b)).length with hle | hlt
        · rw [Nat.sub_eq_zero_of_le hle, List.take_zero, List.append_nil]
            at htake
          have hpre2 : "_batch".data <+: (c :: b) := by
            rw [htake]
            exact List.take_prefix _ _
          have : "_batch".data.isPrefixOf (c :: b) = true :=
            List.isPrefixOf_iff_prefix.mpr hpre2
          rw [hnp0] at this
          cases this
        · rw [List.take_of_length_le (Nat.le_of_lt hlt)] at htake
          rw [List.take_append_eq_append_take] at htake
          have hm0 : ("_batch".data).length - (c :: b).length -
              ("_batch".data).length = 0 := by omega
          rw [hm0, List.take_zero, List.append_nil] at htake
          have hdrop := congrArg (List.drop ((c :: b)).length) htake
          rw [List.drop_left] at hdrop
          have hlen6 : ("_batch".data).length = 6 := rfl
          have hjlen : (c :: b).length = b.length + 1 := by simp
          rw [hlen6, hjlen] at hdrop hlt
          have hcases : b.length = 0 ∨ b.length = 1 ∨ b.length = 2 ∨
              b.length = 3 ∨ b.length = 4 := by omega
          rcases hcases with h5 | h5 | h5 | h5 | h5 <;>
            (rw [h5] at hdrop; exact absurd hdrop (by decide))
      rw [show takeBeforeAux "_batch".data (c :: (b ++ "_batch".data ++ r)) =
        if "_batch".data.isPrefixOf (c :: (b ++ "_batch".data ++ r)) then
          some []
        else (takeBeforeAux "_batch".data (b ++ "_batch".data ++ r)).map
          (fun q => c :: q) from rfl]
      rw [if_neg (by rw [hnp]; simp)]
      rw [ih r hb']
      rfl
  · intro s h
    unfold baseKey
    rw [if_pos (by simpa using h)]
    unfold hasSubL at h
    cases hp : takeBeforeAux "_batch".data s.data with
    | none => rw [hp] at h; simp at h
    | some p =>
      have hlen := takeBeforeAux_length "_batch".data s.data p hp
      have hlen6 : ("_batch".data).length = 6 := rfl
      rw [hlen6] at hlen
      intro heq
      have hdata := congrArg String.data heq
      unfold takeBeforeL at hdata
      rw [hp] at hdata
      simp only at hdata
      have : p.length = s.data.length := by rw [hdata]
      omega
  · intro combine_llm
    exact ⟨rfl, rfl⟩

/-- Claim C10, witness: part (a) at `b = "A"`, `r = "X"` and part (b)
at the key `"A_batchX"`. -/
theorem c10_witness :
    hasSubL "_batch".data ("A".data) = false ∧
    takeBeforeAux "_batch".data ("A".data ++ "_batch".data ++ "X".data) =
      some ("A".data) ∧
    hasSubL "_batch".data ("A_batchX".data) = true ∧
    baseKey "A_batchX" ≠ "A_batchX" :=
  ⟨by decide,
    c10_basekey_first_batch_split.1 ("A".data) ("X".data) (by decide),
    by decide,
    c10_basekey_first_batch_split.2.1 "A_batchX" (by decide)⟩

/-! ### The tabular assemblers (`__main__.save_patient_metadata_to_excel`
and `__main__.save_other_cancer_data_to_excel`) and their helpers

External capabilities: `trn` is the bilingual translation service used
by `translate_demography` (`none` = the library raised), `llm` is
`translate_text_llm` (`none` = its `except` branch returned `None`),
`jparse` is `json.loads`. -/

/-- Python `<` for the date comparison in `format_medicines_by_date`
(dates modelled as ints or strings; comparing incompatible types — in
particular anything against `None` — raises `TypeError`). -/
def pyLt (a b : Val) : Except PyErr Bool :=
  match a, b with
  | .vint x, .vint y => .ok (decide (x < y))
  | .vstr x, .vstr y => .ok (decide (x < y))
  | _, _ => .error .typeError

/-- Python `>=`, as `pyLt`. -/
def pyGe (a b : Val) : Except PyErr Bool :=
  match a, b with
  | .vint x, .vint y => .ok (decide (x ≥ y))
  | .vstr x, .vstr y => .ok (decide (x ≥ y))
  | _, _ => .error .typeError

/-- The list comprehension of `format_medicines_by_date`: medicines
with an `ISSUED_ON_DATETIME` on the requested side of the sample date,
formatted as `"{name}, {dosage} ({issued_date_string})"`. -/
def medsFilter : List Val → Val → Bool → Except PyErr (List String)
  | [], _, _ => .ok []
  | med :: rest, sample_date, prior => do
    let hask ← pyContainsKey med "ISSUED_ON_DATETIME"
    if hask then do
      let dt ← pyIndex med "ISSUED_ON_DATETIME"
      let cond ← if prior then pyLt dt sample_date else pyGe dt sample_date
      if cond then do
        let nm ← pyIndex med "MEDICINE_NAME"
        let dos ← pyIndex med "MEDICINE_DOSAGE"
        let iss ← pyIndex med "ISSUED_ON_STRING"
        let pieces ← medsFilter rest sample_date prior
        .ok ((py_str nm ++ ", " ++ py_str dos ++ " (" ++ py_str iss ++ ")")
          :: pieces)
      else medsFilter rest sample_date prior
    else medsFilter rest sample_date prior

/-- `__main__.format_medicines_by_date(patient_data, sample_date,
prior)`. -/
def format_medicines_by_date (patient_data : Val) (sample_date : Val)
    (prior : Bool) : Except PyErr String := do
  let meds ← pyGet patient_data "medicines" (.vlist [])
  let items ← pyIter meds
  let pieces ← medsFilter items sample_date prior
  .ok (if pieces.isEmpty then "None" else py_join ", " pieces)

/-- The tissue loop of `__main__.format_tissue_data`: each dict yields a
`Site/Details` paragraph (a list-valued `details` is comma-joined and
must hold strings); a non-dict tissue raises (`tissue.get`). -/
def ftdItems : List Val → Except PyErr String
  | [] => .ok ""
  | .vdict kvs :: rest => do
    let site := dGetD kvs "site" (.vstr "Unknown")
    let details := dGetD kvs "details" (.vstr "No details available")
    let dtext ← (match details with
      | .vlist ds =>
        match strsOfVals ds with
        | some ss => Except.ok (py_join ", " ss)
        | none => Except.error .typeError
      | _ => Except.ok (py_str details))
    let restTxt ← ftdItems rest
    .ok ("Site: " ++ py_str site ++ "\nDetails: " ++ dtext ++ "\n\n" ++ restTxt)
  | _ :: _ => .error .attrError

/-- `__main__.format_tissue_data`: the string `'None'` passes through;
any other value is iterated (non-iterables raise). -/
def format_tissue_data (tissue_data : Val) : Except PyErr String :=
  match tissue_data with
  | .vstr s =>
    if s = "None" then .ok "None"
    else do
      let items ← pyIter (.vstr s)
      let txt ← ftdItems items
      .ok (py_strip txt)
  | v => do
    let items ← pyIter v
    let txt ← ftdItems items
    .ok (py_strip txt)

/-- `__main__.translate_gender` (an unhashable argument to `dict.get`
raises). -/
def translate_gender : Val → Except PyErr String
  | .vstr s =>
    .ok (if s = "זכר" then "Male" else if s = "נקבה" then "Female"
         else "Unknown")
  | .vlist _ => .error .typeError
  | .vdict _ => .error .typeError
  | _ => .ok "Unknown"

/-- One call of the translation service: the library takes a string;
`none` models a raised error (caught by `translate_demography`). -/
def trnCall (trn : String → Option String) (v : Val) : Except PyErr String :=
  match v with
  | .vstr s =>
    match trn s with
    | some r => .ok r
    | none => .error .typeError
  | _ => .error .typeError

/-- The `try` body of `__main__.translate_demography`. -/
def translate_demography_body (trn : String → Option String)
    (patient_data medical_texts_json_data : Val) : Except PyErr String := do
  let demo ← pyIndex patient_data "demography"
  let natv ← pyGet demo "NATIONALITY_NAME" (.vstr "")
  let nationality ← trnCall trn natv
  let relv ← pyGet demo "RELIGION_NAME" (.vstr "")
  let religion ← trnCall trn relv
  let cobv ← pyGet demo "COUNTRYBIRTH_NAME" (.vstr "")
  let country_of_birth ← trnCall trn cobv
  let eth ← pyGet medical_texts_json_data "ethnicity" (.vstr "")
  let cond ← (if pyTruthy eth then
      match eth with
      | .vstr es => Except.ok (py_lower es != "none")
      | _ => Except.error .attrError
    else Except.ok false)
  let re := if cond then
      "Religion/Ethnicity: " ++ religion ++ "/" ++ py_str eth
    else "Religion: " ++ religion
  .ok ("Nationality: " ++ nationality ++ " \n" ++ re ++ "\nCOB: " ++
    country_of_birth)

/-- `__main__.translate_demography`: any exception becomes the string
`"Translation Error"`. -/
def translate_demography (trn : String → Option String)
    (patient_data medical_texts_json_data : Val) : String :=
  match translate_demography_body trn patient_data medical_texts_json_data with
  | .ok s => s
  | .error _ => "Translation Error"

/-- `__main__.clean_habits_text`: remove the bracketed helper phrases
and re-join on single spaces. -/
def clean_habits_text (text : String) : String :=
  let t1 : String := ⟨replaceSubL "(detail)".data (by decide) [] text.data⟩
  let t2 : String := ⟨replaceSubL "(Detail)".data (by decide) [] t1.data⟩
  let t3 : String := ⟨replaceSubL "(indicate quantity)".data (by decide) [] t2.data⟩
  let t4 : String := ⟨replaceSubL "(Indicate quantity)".data (by decide) [] t3.data⟩
  let t5 : String := ⟨replaceSubL "(specify quantity)".data (by decide) [] t4.data⟩
  let t6 : String := ⟨replaceSubL "(Specify quantity)".data (by decide) [] t5.data⟩
  py_join " " (py_words t6)

/-- `__main__.format_habits` together with
`translate_and_clean_habits`: empty habits render `"None"`; otherwise
the joined `key: value` lines go to the LLM translator — whose `None`
failure makes `clean_habits_text(None)` raise an uncaught
`AttributeError`. -/
def format_habits (llm : String → Option String) (habits_data : Val) :
    Except PyErr String :=
  if pyTruthy habits_data then
    match habits_data with
    | .vdict d =>
      let combined := py_join "\n"
        ((d.filter (fun kv => pyTruthy kv.2)).map
          (fun kv => kv.1 ++ ": " ++ py_str kv.2))
      if py_strip combined = "None" then .ok "None"
      else
        match llm combined with
        | none => .error .attrError
        | some tr =>
          .ok (if clean_habits_text tr ≠ "" then clean_habits_text tr
               else "None")
    | _ => .error .attrError
  else .ok "None"

/-- The `PAST PATHOLOGIES` comprehension pieces:
`"{item['PATHOLOGY']} ({item['FIRST_DIAGNOSE_DATE']})"`. -/
def ppPieces : List Val → Except PyErr (List String)
  | [] => .ok []
  | it :: rest => do
    let p ← pyIndex it "PATHOLOGY"
    let dte ← pyIndex it "FIRST_DIAGNOSE_DATE"
    let restP ← ppPieces rest
    .ok ((py_str p ++ " (" ++ py_str dte ++ ")") :: restP)

/-- `__main__.format_allergies`: two labelled sublists, each defaulting
to `None`; the surrounding `try/except` returns whatever was
accumulated when an iteration raises (so a non-dict argument yields the
empty string). -/
def format_allergies (allergies : Val) : String :=
  match allergies with
  | .vdict d =>
    let dr := dGetD d "drug_related" .vnone
    match (if pyTruthy dr then
        (pyIter dr).map (fun items =>
          "Drug-related Allergies:\n" ++
            py_join "\n" (items.map (fun a => "  - " ++ py_str a)) ++ "\n\n")
      else Except.ok "Drug-related Allergies: None\n\n") with
    | .error _ => ""
    | .ok part1 =>
      let ndr := dGetD d "non_drug_related" .vnone
      match (if pyTruthy ndr then
          (pyIter ndr).map (fun items =>
            "Non-drug-related Allergies:\n" ++
              py_join "\n" (items.map (fun a => "  - " ++ py_str a)))
        else Except.ok "Non-drug-related Allergies: None\n") with
      | .error _ => part1
      | .ok part2 => part1 ++ part2
  | _ => ""

/-- A spreadsheet row: the dict the assembler builds for one patient
(or one patient + date). -/
def SRow : Type := List (String × Val)

/-- The columns of the per-date other-cancers report. -/
def other_cancer_columns : List String :=
  ["OC", "TYPE OF CANCER", "DATE OF DIAGNOSIS", "TYPE OF PROCEDURE",
   "DIAGNOSIS", "METASTASES", "TUMOR STAGE/GRADE", "PTNM/PTMN",
   "TREATMENTS PREVIOUS TO SAMPLE ARRIVAL",
   "TREATMENTS POST TO SAMPLE ARRIVAL", "STAINED FOR",
   "IMMUNOSTAINING RESULTS", "IMMUNISTAININGS FOR MMR",
   "TISSUES EXAMINED/STAINED", "PDL1", "TUMOR BURDEN TMB",
   "% CANCER CELLS", "CEA", "METADATA", "COMMENTS", "LLM OUTPUT"]

/-- One row of `save_other_cancer_data_to_excel` (the loop body for one
`lab_test_date`). -/
def other_cancer_row (jparse : String → Option Val) (patient_data : Val)
    (lab_test_date : Val) (analysis_result : Val) (first_row_added : Bool) :
    Except PyErr SRow := do
  let (pft, pjson) := extract_free_text_and_json jparse analysis_result
  let oc ← if first_row_added then Except.ok (Val.vstr "")
           else pyGet patient_data "OC" (.vstr "")
  let toc ← pyGet pjson "general_cancer_type" (.vstr "None")
  let top ← pyGet pjson "type_of_procedure_performed" (.vlist [])
  let diag ← pyGet pjson "diagnosis_or_type_of_cancer" (.vstr "None")
  let met ← pyGet pjson "metastases" (.vstr "None")
  let tsg ← pyGet pjson "tumor_stage_or_grade" (.vstr "None")
  let ptnm ← pyGet pjson "ptnm_results" (.vstr "None")
  let sd ← pyGet patient_data "PROCEDURE_DATE" .vnone
  let prev ← format_medicines_by_date patient_data sd true
  let post ← format_medicines_by_date patient_data sd false
  let stv ← pyGet pjson "tissues_stained_for" (.vlist [])
  let stained ← pyJoinIter ", " stv
  let imm ← pyGet pjson "immunostaining_results" (.vstr "None")
  let mmr ← pyGet pjson "immunostaining_for_MMR" (.vstr "None")
  let tesv ← pyGet pjson "tissues_examined_and_stained" (.vstr "None")
  let tes ← format_tissue_data tesv
  let pdl1 ← pyGet pjson "PDL1" (.vstr "None")
  let tmb ← pyGet pjson "tumor_burden_TMB" (.vstr "None")
  let pct ← pyGet pjson "percentage_of_cancer_cells_stained_for_PDL1"
    (.vstr "None")
  let cea ← pyGet pjson "CEA" (.vstr "None")
  let gm ← pyGet pjson "genetic_metadata" (.vstr "None")
  let comments ← pyGet pjson "comments" (.vstr "")
  .ok [("OC", oc),
    ("TYPE OF CANCER", toc),
    ("DATE OF DIAGNOSIS", lab_test_date),
    ("TYPE OF PROCEDURE", .vstr (format_data top)),
    ("DIAGNOSIS", .vstr (format_data diag)),
    ("METASTASES", .vstr (format_data met)),
    ("TUMOR STAGE/GRADE", tsg),
    ("PTNM/PTMN", .vstr (format_data ptnm)),
    ("TREATMENTS PREVIOUS TO SAMPLE ARRIVAL", .vstr prev),
    ("TREATMENTS POST TO SAMPLE ARRIVAL", .vstr post),
    ("STAINED FOR", .vstr stained),
    ("IMMUNOSTAINING RESULTS", .vstr (format_data imm)),
    ("IMMUNISTAININGS FOR MMR", mmr),
    ("TISSUES EXAMINED/STAINED", .vstr tes),
    ("PDL1", pdl1),
    ("TUMOR BURDEN TMB", tmb),
    ("% CANCER CELLS", pct),
    ("CEA", cea),
    ("METADATA", .vstr (format_data gm)),
    ("COMMENTS", comments),
    ("LLM OUTPUT", .vstr (pft ++ "\n" ++ py_str pjson))]

/-- The per-date loop of `save_other_cancer_data_to_excel` for one
patient, threading `first_row_added`. -/
def other_cancer_rows_for_patient (jparse : String → Option Val)
    (patient_data : Val) :
    List (Val × Val) → Bool → Except PyErr (List SRow)
  | [], _ => .ok []
  | (dt, ar) :: rest, first_row_added => do
    let row ← other_cancer_row jparse patient_data dt ar first_row_added
    let rows ← other_cancer_rows_for_patient jparse patient_data rest true
    .ok (row :: rows)

/-- `pathology_analysis_data.items()`: the per-date entries of one
patient's analysis mapping, raising on a non-dict value. -/
def analysisItems (pad : Val) : Except PyErr (List (Val × Val)) :=
  match pad with
  | .vdict d => .ok (d.map (fun kv => (Val.vstr kv.1, kv.2)))
  | _ => .error .attrError

/-- `save_other_cancer_data_to_excel`, up to the spreadsheet write: the
rows produced over the patient index (dates in per-patient mapping
order; a non-dict per-patient analysis raises on `.items()`). -/
def save_other_cancer_rows (jparse : String → Option Val) :
    List String → List (String × Val) → List (String × Val) →
      Except PyErr (List SRow)
  | [], _, _ => .ok []
  | pid :: rest, patients_data, pathology_analysis => do
    let patient_data := (alookup patients_data pid).getD (.vdict [])
    let pad := (alookup pathology_analysis pid).getD (.vdict [])
    let entries ← analysisItems pad
    let rows ← other_cancer_rows_for_patient jparse patient_data entries false
    let restRows ← save_other_cancer_rows jparse rest patients_data
      pathology_analysis
    .ok (rows ++ restRows)

/-- The declared columns of the main per-patient report. -/
def patient_columns : List String :=
  ["OC", "TYPE OF CANCER", "YEAR OF BIRTH", "DATE OF DEATH", "SEX",
   "DEMOGRAPHY", "DATE OF PROCEDURE/SAMPLE ARRIVAL", "FAMILY HISTORY",
   "PAST PATHOLOGIES ", "ALLERGIES", "HABITS", "TYPE OF PROCEDURE",
   "DIAGNOSIS", "METASTASES", "TUMOR STAGE/GRADE", "PTNM/PTMN",
   "TREATMENTS PREVIOUS TO SAMPLE ARRIVAL",
   "TREATMENTS POST TO SAMPLE ARRIVAL", "STAINED FOR",
   "IMMUNOSTAINING RESULTS", "IMMUNISTAININGS FOR MMR",
   "TISSUES EXAMINED/STAINED", "PDL1", "TUMOR BURDEN TMB",
   "% CANCER CELLS", "CEA", "METADATA", "COMMENTS", "LLM OUTPUT"]

/-- One row of `save_patient_metadata_to_excel` (the loop body after
the skip test); the row dict also carries the stray `COMMENT` key that
is not among the declared columns and is dropped by the DataFrame. -/
def patient_row (trn llm : String → Option String)
    (jparse : String → Option Val)
    (patient_data pathology_analysis_data medical_texts_analysis_data : Val) :
    Except PyErr SRow := do
  let (pft, pjson) :=
    extract_free_text_and_json jparse pathology_analysis_data
  let (mft, mjson) :=
    extract_free_text_and_json jparse medical_texts_analysis_data
  let oc ← pyGet patient_data "OC" (.vstr "")
  let toc ← pyGet pjson "general_cancer_type" (.vstr "None")
  let hasDemo ← pyContainsKey patient_data "demography"
  let yob ← (if hasDemo then do
      let demo ← pyIndex patient_data "demography"
      let bd ← pyIndex demo "BIRTHDATE"
      match bd with
      | .vstr s => Except.ok (Val.vstr ⟨s.data.take 4⟩)
      | _ => Except.error .typeError
    else Except.ok (Val.vstr ""))
  let demo2 ← pyIndex patient_data "demography"
  let ddv ← pyGet demo2 "DEATHDATE" .vnone
  let gn ← pyGet demo2 "GENDER_NAME" (.vstr "")
  let sex ← translate_gender gn
  let demog := translate_demography trn patient_data mjson
  let pdte ← pyGet patient_data "PROCEDURE_DATE" (.vstr "")
  let famv ← pyGet mjson "family_history" .vnone
  let icd9cond ← pyGet patient_data "icd9" .vnone
  let icd9v ← pyGet patient_data "icd9" (.vlist [])
  let pasts ← (if pyTruthy icd9cond then do
      let items ← pyIter icd9v
      let pieces ← ppPieces items
      Except.ok (py_join ", " pieces)
    else Except.ok "None")
  let allv ← pyGet mjson "allergies" .vnone
  let habv ← pyGet patient_data "habits" (.vdict [])
  let habits ← format_habits llm habv
  let topcond ← pyGet pjson "type_of_procedure_performed" .vnone
  let topv ← pyGet pjson "type_of_procedure_performed" (.vlist [])
  let top ← (if pyTruthy topcond then do
      let items ← pyIter topv
      Except.ok (py_join ". " (items.map
        (fun p => (⟨stripCharsL (fun c => c == '.') (py_str p).data⟩ : String))))
    else Except.ok "None")
  let diag ← pyGet pjson "diagnosis_or_type_of_cancer" (.vstr "None")
  let met ← pyGet pjson "metastases" (.vstr "None")
  let tsg ← pyGet pjson "tumor_stage_or_grade" (.vstr "None")
  let ptnmv ← pyGet pjson "ptnm_results" (.vstr "None")
  let sd ← pyGet patient_data "PROCEDURE_DATE" .vnone
  let prev ← format_medicines_by_date patient_data sd true
  let post ← format_medicines_by_date patient_data sd false
  let stcond ← pyGet pjson "tissues_stained_for" .vnone
  let stv ← pyGet pjson "tissues_stained_for" (.vlist [])
  let stained ← (if pyTruthy stcond then do
      let items ← pyIter stv
      Except.ok (py_join ", " (items.map py_str))
    else Except.ok "None")
  let imm ← pyGet pjson "immunostaining_results" (.vstr "None")
  let mmr ← pyGet pjson "immunostaining_for_MMR" (.vstr "None")
  let tesv ← pyGet pjson "tissues_examined_and_stained" (.vstr "None")
  let tes ← format_tissue_data tesv
  let pdl1 ← pyGet pjson "PDL1" (.vstr "None")
  let tmb ← pyGet pjson "tumor_burden_TMB" (.vstr "None")
  let pct ← pyGet pjson "percentage_of_cancer_cells_stained_for_PDL1"
    (.vstr "None")
  let cea ← pyGet pjson "CEA" (.vstr "None")
  let gmp ← pyGet pjson "genetic_metadata" (.vstr "None")
  let gmm ← pyGet mjson "genetic_metadata" (.vstr "None")
  let comments ← pyGet pjson "comments" (.vstr "")
  .ok [("OC", oc),
    ("TYPE OF CANCER", toc),
    ("YEAR OF BIRTH", yob),
    ("DATE OF DEATH", if pyTruthy ddv then ddv else Val.vstr "None"),
    ("SEX", .vstr sex),
    ("DEMOGRAPHY", .vstr demog),
    ("DATE OF PROCEDURE/SAMPLE ARRIVAL", pdte),
    ("FAMILY HISTORY", .vstr (format_family_history famv)),
    ("PAST PATHOLOGIES ", .vstr pasts),
    ("ALLERGIES", .vstr (format_allergies allv)),
    ("HABITS", .vstr habits),
    ("COMMENT", .vstr ""),
    ("TYPE OF PROCEDURE", .vstr top),
    ("DIAGNOSIS", .vstr (format_data diag)),
    ("METASTASES", .vstr (format_data met)),
    ("TUMOR STAGE/GRADE", .vstr (format_data tsg)),
    ("PTNM/PTMN", .vstr (format_data ptnmv)),
    ("TREATMENTS PREVIOUS TO SAMPLE ARRIVAL", .vstr prev),
    ("TREATMENTS POST TO SAMPLE ARRIVAL", .vstr post),
    ("STAINED FOR", .vstr stained),
    ("IMMUNOSTAINING RESULTS", .vstr (format_data imm)),
    ("IMMUNISTAININGS FOR MMR", .vstr (py_str mmr)),
    ("TISSUES EXAMINED/STAINED", .vstr tes),
    ("PDL1", .vstr (py_str pdl1)),
    ("TUMOR BURDEN TMB", .vstr (py_str tmb)),
    ("% CANCER CELLS", .vstr (py_str pct)),
    ("CEA", .vstr (py_str cea)),
    ("METADATA", .vstr (combine_genetic_metadata gmp gmm)),
    ("COMMENTS", comments),
    ("LLM OUTPUT", .vstr (pft ++ " \n " ++ py_str pjson ++ " \n " ++ mft ++
      " \n " ++ py_str mjson))]

/-- `save_patient_metadata_to_excel`, up to the spreadsheet write: one
row per indexed patient, skipping patients missing either analysis. -/
def save_patient_rows (trn llm : String → Option String)
    (jparse : String → Option Val) :
    List String → List (String × Val) → List (String × Val) →
      List (String × Val) → Except PyErr (List SRow)
  | [], _, _, _ => .ok []
  | pid :: rest, patients_data, pathology_analysis, medical_texts_analysis => do
    let patient_data := (alookup patients_data pid).getD (.vdict [])
    let pad := (alookup pathology_analysis pid).getD .vnone
    let mad := (alookup medical_texts_analysis pid).getD .vnone
    if !(pyTruthy pad) || !(pyTruthy mad) then
      save_patient_rows trn llm jparse rest patients_data pathology_analysis
        medical_texts_analysis
    else do
      let row ← patient_row trn llm jparse patient_data pad mad
      let rows ← save_patient_rows trn llm jparse rest patients_data
        pathology_analysis medical_texts_analysis
      .ok (row :: rows)

/-! ### Claim C8: every declared column of every emitted row -/

/-- A key present among a row's keys has a value under `alookup`. -/
theorem alookup_isSome_of_mem_keys :
    ∀ (row : List (String × Val)) (c : String),
      c ∈ row.map Prod.fst → (alookup row c).isSome = true := by
  intro row
  induction row with
  | nil => intro c hc; simp at hc
  | cons hd t ih =>
    intro c hc
    obtain ⟨k, v⟩ := hd
    simp only [List.map_cons, List.mem_cons] at hc
    by_cases hk : k = c
    · simp [alookup, hk]
    · rcases hc with hc | hc
      · exact absurd hc.symm hk
      · simp only [alookup, if_neg hk]
        exact ih c hc

/-- Every spreadsheet cell of every row carries a value for every
requested column. -/
def rows_have_columns (cols : List String) (rows : List SRow) : Bool :=
  rows.all (fun row => cols.all (fun c => (alookup row c).isSome))

/-- A successfully built other-cancers row has exactly the declared
columns as its keys, in order. -/
theorem other_cancer_row_keys (jparse : String → Option Val)
    (patient_data lab_test_date analysis_result : Val)
    (first_row_added : Bool) (row : SRow)
    (h : other_cancer_row jparse patient_data lab_test_date analysis_result
      first_row_added = .ok row) :
    row.map Prod.fst = other_cancer_columns := by
  unfold other_cancer_row at h
  simp only [bind, Except.bind] at h
  repeat' split at h
  all_goals (try (cases h))
  all_goals rfl

/-- The keys of the dict built for one row of the per-patient report:
the declared columns plus the stray `COMMENT` key. -/
def patient_row_keys_list : List String :=
  ["OC", "TYPE OF CANCER", "YEAR OF BIRTH", "DATE OF DEATH", "SEX",
   "DEMOGRAPHY", "DATE OF PROCEDURE/SAMPLE ARRIVAL", "FAMILY HISTORY",
   "PAST PATHOLOGIES ", "ALLERGIES", "HABITS", "COMMENT",
   "TYPE OF PROCEDURE", "DIAGNOSIS", "METASTASES", "TUMOR STAGE/GRADE",
   "PTNM/PTMN", "TREATMENTS PREVIOUS TO SAMPLE ARRIVAL",
   "TREATMENTS POST TO SAMPLE ARRIVAL", "STAINED FOR",
   "IMMUNOSTAINING RESULTS", "IMMUNISTAININGS FOR MMR",
   "TISSUES EXAMINED/STAINED", "PDL1", "TUMOR BURDEN TMB",
   "% CANCER CELLS", "CEA", "METADATA", "COMMENTS", "LLM OUTPUT"]

/-- A successfully built patient row has the declared columns (plus the
stray `COMMENT` key) as its keys. -/
theorem patient_row_keys (trn llm : String → Option String)
    (jparse : String → Option Val)
    (patient_data pathology_analysis_data medical_texts_analysis_data : Val)
    (row : SRow)
    (h : patient_row trn llm jparse patient_data pathology_analysis_data
      medical_texts_analysis_data = .ok row) :
    row.map Prod.fst = patient_row_keys_list := by
  unfold patient_row at h
  simp only [bind, Except.bind] at h
  repeat' split at h
  all_goals (try (cases h))
  all_goals rfl

/-- Keys of every row of the per-patient date loop. -/
theorem other_cancer_rows_for_patient_keys (jparse : String → Option Val)
    (patient_data : Val) :
    ∀ (entries : List (Val × Val)) (first_row_added : Bool)
      (rows : List SRow),
      other_cancer_rows_for_patient jparse patient_data entries
        first_row_added = .ok rows →
      ∀ row ∈ rows, row.map Prod.fst = other_cancer_columns := by
  intro entries
  induction entries with
  | nil =>
    intro fra rows h row hrow
    cases h
    simp at hrow
  | cons hd rest ih =>
    intro fra rows h row hrow
    obtain ⟨dt, ar⟩ := hd
    simp only [other_cancer_rows_for_patient, bind, Except.bind] at h
    cases hr : other_cancer_row jparse patient_data dt ar fra with
    | error e => rw [hr] at h; cases h
    | ok r0 =>
      rw [hr] at h
      cases hrest : other_cancer_rows_for_patient jparse patient_data rest
          true with
      | error e => rw [hrest] at h; cases h
      | ok rs =>
        rw [hrest] at h
        cases h
        rcases List.mem_cons.mp hrow with hrow | hrow
        · subst hrow
          exact other_cancer_row_keys jparse patient_data dt ar fra row hr
        · exact ih true rs hrest row hrow

/-- Keys of every row of the other-cancers report. -/
theorem save_other_cancer_rows_keys (jparse : String → Option Val) :
    ∀ (patient_index : List String) (patients_data : List (String × Val))
      (pathology_analysis : List (String × Val)) (rows : List SRow),
      save_other_cancer_rows jparse patient_index patients_data
        pathology_analysis = .ok rows →
      ∀ row ∈ rows, row.map Prod.fst = other_cancer_columns := by
  intro patient_index
  induction patient_index with
  | nil =>
    intro pd pa rows h row hrow
    cases h
    simp at hrow
  | cons pid rest ih =>
    intro pd pa rows h row hrow
    simp only [save_other_cancer_rows, bind, Except.bind] at h
    cases hent : analysisItems ((alookup pa pid).getD (.vdict [])) with
    | error e => rw [hent] at h; cases h
    | ok entries =>
      rw [hent] at h
      dsimp only at h
      cases hr1 : other_cancer_rows_for_patient jparse
          ((alookup pd pid).getD (.vdict [])) entries false with
      | error e => rw [hr1] at h; cases h
      | ok rows1 =>
        rw [hr1] at h
        dsimp only at h
        cases hr2 : save_other_cancer_rows jparse rest pd pa with
        | error e => rw [hr2] at h; cases h
        | ok rows2 =>
          rw [hr2] at h
          dsimp only at h
          cases h
          rcases List.mem_append.mp hrow with hrow | hrow
          · exact other_cancer_rows_for_patient_keys jparse _ entries false
              rows1 hr1 row hrow
          · exact ih pd pa rows2 hr2 row hrow

/-- Keys of every row of the per-patient report. -/
theorem save_patient_rows_keys (trn llm : String → Option String)
    (jparse : String → Option Val) :
    ∀ (patient_index : List String)
      (patients_data pathology_analysis medical_texts_analysis :
        List (String × Val)) (rows : List SRow),
      save_patient_rows trn llm jparse patient_index patients_data
        pathology_analysis medical_texts_analysis = .ok rows →
      ∀ row ∈ rows, ∀ c ∈ patient_columns, c ∈ row.map Prod.fst := by
  intro patient_index
  induction patient_index with
  | nil =>
    intro pd pa ma rows h row hrow
    cases h
    simp at hrow
  | cons pid rest ih =>
    intro pd pa ma rows h row hrow
    simp only [save_patient_rows, bind, Except.bind] at h
    split at h
    · exact ih pd pa ma rows h row hrow
    · cases hr1 : patient_row trn llm jparse ((alookup pd pid).getD (.vdict []))
          ((alookup pa pid).getD .vnone) ((alookup ma pid).getD .vnone) with
      | error e => rw [hr1] at h; cases h
      | ok r0 =>
        rw [hr1] at h
        cases hr2 : save_patient_rows trn llm jparse rest pd pa ma with
        | error e => rw [hr2] at h; cases h
        | ok rows2 =>
          rw [hr2] at h
          cases h
          rcases List.mem_cons.mp hrow with hrow | hrow
          · subst hrow
            intro c hc
            rw [patient_row_keys trn llm jparse _ _ _ row hr1]
            have hsub : ∀ x ∈ patient_columns, x ∈ patient_row_keys_list := by
              decide
            exact hsub c hc
          · exact ih pd pa ma rows2 hr2 row hrow

/-- Claim C8, amended: whenever assembly completes, every emitted row of
both reports carries a value for every declared column (for the main
report the row additionally holds the undeclared `COMMENT` key); but
those values are not always non-blank — see the counterexample — and
assembly itself is not total (e.g. a `null` `tissues_stained_for` makes
the other-cancers `', '.join` raise). -/
theorem c8_amended :
    (∀ (jparse : String → Option Val) (patient_index : List String)
       (patients_data pathology_analysis : List (String × Val))
       (rows : List SRow),
       save_other_cancer_rows jparse patient_index patients_data
         pathology_analysis = .ok rows →
       rows_have_columns other_cancer_columns rows = true) ∧
    (∀ (trn llm : String → Option String) (jparse : String → Option Val)
       (patient_index : List String)
       (patients_data pathology_analysis medical_texts_analysis :
         List (String × Val)) (rows : List SRow),
       save_patient_rows trn llm jparse patient_index patients_data
         pathology_analysis medical_texts_analysis = .ok rows →
       rows_have_columns patient_columns rows = true) := by
  constructor
  · intro jparse idx pd pa rows h
    simp only [rows_have_columns, List.all_eq_true]
    intro row hrow
    intro c hc
    apply alookup_isSome_of_mem_keys
    rw [save_other_cancer_rows_keys jparse idx pd pa rows h row hrow]
    simpa using hc
  · intro trn llm jparse idx pd pa ma rows h
    simp only [rows_have_columns, List.all_eq_true]
    intro row hrow
    intro c hc
    apply alookup_isSome_of_mem_keys
    exact save_patient_rows_keys trn llm jparse idx pd pa ma rows h row hrow c
      (by simpa using hc)

/-- Claim C8, counterexample: in the other-cancers report, a patient
whose parsed pathology JSON is empty (no fenced block) gets
`'STAINED FOR' = ', '.join([])`, i.e. the empty string — the declared
column is left blank, not the placeholder `'None'`; and when the parsed
JSON holds `tissues_stained_for: null` the unguarded join raises a
`TypeError`, so no row is emitted at all. -/
theorem c8_counterexample :
    (((save_other_cancer_rows (fun _ => none) ["P1"] []
        [("P1", .vdict [("2020-01-01",
          .vdict [("COMBINED_ANALYSIS", .vstr "summary text")])])]).toOption.getD
      []).head?.bind (fun row => alookup row "STAINED FOR")) =
      some (Val.vstr "") ∧
    Val.vstr "" ≠ Val.vstr "None" ∧
    save_other_cancer_rows
        (fun _ => some (.vdict [("tissues_stained_for", Val.vnone)])) ["P1"] []
        [("P1", .vdict [("2020-01-01",
          .vdict [("COMBINED_ANALYSIS",
            .vstr "x\n```json\n\x7b\x22a\x22: 1\x7d\n```")])])] =
      .error .typeError := by
  refine ⟨rfl, ?_, rfl⟩
  intro h
  injection h with h2
  exact absurd h2 (by decide)

/-- Claim C8, witness: a complete one-patient run of the per-patient
assembler, checked against the amended theorem. -/
theorem c8_witness :
    (save_patient_rows (fun _ => some "T") (fun _ => none) (fun _ => none)
        ["P1"]
        [("P1", .vdict [("demography",
          .vdict [("BIRTHDATE", .vstr "1980-05-05")])])]
        [("P1", .vdict [("COMBINED_ANALYSIS", .vstr "ptext")])]
        [("P1", .vdict [("COMBINED_ANALYSIS", .vstr "mtext")])]).map
      (rows_have_columns patient_columns) = .ok true := by
  obtain ⟨rows, hrows⟩ :
      ∃ rows, save_patient_rows (fun _ => some "T") (fun _ => none)
        (fun _ => none) ["P1"]
        [("P1", .vdict [("demography",
          .vdict [("BIRTHDATE", .vstr "1980-05-05")])])]
        [("P1", .vdict [("COMBINED_ANALYSIS", .vstr "ptext")])]
        [("P1", .vdict [("COMBINED_ANALYSIS", .vstr "mtext")])] = .ok rows :=
    ⟨_, rfl⟩
  rw [hrows, Except.map]
  exact congrArg Except.ok
    (c8_amended.2 (fun _ => some "T") (fun _ => none) (fun _ => none) ["P1"]
      [("P1", .vdict [("demography",
        .vdict [("BIRTHDATE", .vstr "1980-05-05")])])]
      [("P1", .vdict [("COMBINED_ANALYSIS", .vstr "ptext")])]
      [("P1", .vdict [("COMBINED_ANALYSIS", .vstr "mtext")])] rows hrows)
